import Mathlib

/-!
Verification of the minispace backend's tenant-isolated identity and
data-protection core against its natural-language specification.

The development shallowly embeds the relevant Rust source files:

* `src/backend/src/db/tenant.rs` — `schema_name`;
* `src/backend/src/services/encryption.rs` — `derive_tenant_key`
  (HKDF-SHA256), `encrypt_file` / `decrypt_file` (AES-256-GCM);
* `src/backend/src/services/auth.rs` — the `AuthService` operations
  (`login`, `verify_2fa`, `refresh`, `logout`, `change_password`,
  device-token helpers) as explicit state passing over a tenant database
  value.

Machine integers are embedded as `Nat` with explicit masking where the
source relies on a fixed width; byte strings are `List Nat`; fallible
Rust functions return `Except`/`Option`.  The cryptographic primitives
called from `encryption.rs` (SHA-256, HMAC, HKDF, AES-256, GCM) are
implemented concretely, following FIPS 180-4, RFC 2104, RFC 5869,
FIPS 197 and NIST SP 800-38D, so that every definition is executable.
-/

namespace Minispace

/-! ## `schema_name` (src/backend/src/db/tenant.rs:601-603)

`format!("garderie_{}", slug.to_lowercase().replace('-', "_"))`.
Rust's `to_lowercase` is modelled by per-character lowercasing (they agree
on ASCII slugs, the only ones the application routes here); the
single-character `replace` is a character map. -/

def schema_name (slug : String) : String :=
  "garderie_" ++ String.mk (slug.data.map (fun c => if c.toLower = '-' then '_' else c.toLower))

/-! ## SHA-256 (FIPS 180-4), HMAC (RFC 2104), HKDF (RFC 5869)

These implement the `sha2`/`hmac`/`hkdf` crates used by
`derive_tenant_key`.  Words are `Nat` masked to 32 bits. -/

/-- 2^32 - 1, the 32-bit mask. -/
def M32 : Nat := 0xffffffff

/-- 32-bit right rotation. -/
def rotr32 (x n : Nat) : Nat := ((x >>> n) ||| (x <<< (32 - n))) &&& M32

/-- SHA-256 round constants (fractional parts of cube roots of the first 64 primes). -/
def shaK : List Nat :=
  [0x428a2f98, 0x71374491, 0xb5c0fbcf, 0xe9b5dba5, 0x3956c25b, 0x59f111f1] ++
  [0x923f82a4, 0xab1c5ed5, 0xd807aa98, 0x12835b01, 0x243185be, 0x550c7dc3] ++
  [0x72be5d74, 0x80deb1fe, 0x9bdc06a7, 0xc19bf174, 0xe49b69c1, 0xefbe4786] ++
  [0xfc19dc6, 0x240ca1cc, 0x2de92c6f, 0x4a7484aa, 0x5cb0a9dc, 0x76f988da] ++
  [0x983e5152, 0xa831c66d, 0xb00327c8, 0xbf597fc7, 0xc6e00bf3, 0xd5a79147] ++
  [0x6ca6351, 0x14292967, 0x27b70a85, 0x2e1b2138, 0x4d2c6dfc, 0x53380d13] ++
  [0x650a7354, 0x766a0abb, 0x81c2c92e, 0x92722c85, 0xa2bfe8a1, 0xa81a664b] ++
  [0xc24b8b70, 0xc76c51a3, 0xd192e819, 0xd6990624, 0xf40e3585, 0x106aa070] ++
  [0x19a4c116, 0x1e376c08, 0x2748774c, 0x34b0bcb5, 0x391c0cb3, 0x4ed8aa4a] ++
  [0x5b9cca4f, 0x682e6ff3, 0x748f82ee, 0x78a5636f, 0x84c87814, 0x8cc70208] ++
  [0x90befffa, 0xa4506ceb, 0xbef9a3f7, 0xc67178f2]

/-- SHA-256 initial hash value (fractional parts of square roots of the first 8 primes). -/
def shaH0 : List Nat :=
  [0x6a09e667, 0xbb67ae85, 0x3c6ef372, 0xa54ff53a, 0x510e527f, 0x9b05688c, 0x1f83d9ab,
   0x5be0cd19]

/-- Pack big-endian bytes into 32-bit words, four at a time. -/
def bytesToWords : List Nat → List Nat
  | b0 :: b1 :: b2 :: b3 :: rest =>
      ((((b0 <<< 8) ||| b1) <<< 8 ||| b2) <<< 8 ||| b3) :: bytesToWords rest
  | _ => []

/-- SHA-256 padding: append 0x80, zeros to 56 mod 64, then the 64-bit bit length. -/
def sha256Pad (msg : List Nat) : List Nat :=
  let l := msg.length
  let zeros := (120 - ((l + 1) % 64)) % 64
  msg ++ [0x80] ++ List.replicate zeros 0 ++
    (List.range 8).map (fun i => ((8 * l) >>> (8 * (7 - i))) &&& 255)

/-- Split a list into chunks of `n` elements (the last chunk may be
shorter), structurally recursive on a fuel argument so that the kernel can
evaluate it; `l.length` steps always suffice for `n > 0`. -/
def chunksExactF (n : Nat) : Nat → List Nat → List (List Nat)
  | 0, _ => []
  | fuel + 1, l => if l = [] then [] else l.take n :: chunksExactF n fuel (l.drop n)

/-- Split a list into chunks of `n` elements (the last chunk may be shorter). -/
def chunksExact (n : Nat) (l : List Nat) : List (List Nat) :=
  chunksExactF n l.length l

/-- Extend the 16 words of a block to the 64-word message schedule. -/
def msgSchedule (w16 : List Nat) : List Nat :=
  (List.range' 16 48).foldl
    (fun w i =>
      let s0 := rotr32 (w.getD (i - 15) 0) 7 ^^^ rotr32 (w.getD (i - 15) 0) 18 ^^^
        (w.getD (i - 15) 0 >>> 3)
      let s1 := rotr32 (w.getD (i - 2) 0) 17 ^^^ rotr32 (w.getD (i - 2) 0) 19 ^^^
        (w.getD (i - 2) 0 >>> 10)
      w ++ [(w.getD (i - 16) 0 + s0 + w.getD (i - 7) 0 + s1) &&& M32])
    w16

/-- One round of the SHA-256 compression function on the `[a,b,c,d,e,f,g,h]` state. -/
def shaCompressStep (w : List Nat) (hs : List Nat) (i : Nat) : List Nat :=
  let a := hs.getD 0 0
  let b := hs.getD 1 0
  let c := hs.getD 2 0
  let d := hs.getD 3 0
  let e := hs.getD 4 0
  let f := hs.getD 5 0
  let g := hs.getD 6 0
  let h := hs.getD 7 0
  let s1 := rotr32 e 6 ^^^ rotr32 e 11 ^^^ rotr32 e 25
  let ch := (e &&& f) ^^^ (((e &&& M32) ^^^ M32) &&& g)
  let t1 := (h + s1 + ch + shaK.getD i 0 + w.getD i 0) &&& M32
  let s0 := rotr32 a 2 ^^^ rotr32 a 13 ^^^ rotr32 a 22
  let mj := (a &&& b) ^^^ (a &&& c) ^^^ (b &&& c)
  let t2 := (s0 + mj) &&& M32
  [(t1 + t2) &&& M32, a, b, c, (d + t1) &&& M32, e, f, g]

/-- Process one 64-byte block. -/
def sha256Block (hs : List Nat) (block : List Nat) : List Nat :=
  let w := msgSchedule (bytesToWords block)
  let out := (List.range 64).foldl (shaCompressStep w) hs
  List.zipWith (fun x y => (x + y) &&& M32) hs out

/-- Serialize a 32-bit word to four big-endian bytes. -/
def wordBytes (x : Nat) : List Nat :=
  [(x >>> 24) &&& 255, (x >>> 16) &&& 255, (x >>> 8) &&& 255, x &&& 255]

/-- SHA-256 of a byte string. -/
def sha256 (msg : List Nat) : List Nat :=
  ((chunksExact 64 (sha256Pad msg)).foldl sha256Block shaH0).flatMap wordBytes

/-- HMAC-SHA256 (RFC 2104): block size 64 bytes. -/
def hmacSha256 (key msg : List Nat) : List Nat :=
  let k0 := if 64 < key.length then sha256 key else key
  let kp := k0 ++ List.replicate (64 - k0.length) 0
  sha256 ((kp.map (fun b => b ^^^ 0x5c)) ++ sha256 ((kp.map (fun b => b ^^^ 0x36)) ++ msg))

/-- HKDF-Extract (RFC 5869): `PRK = HMAC(salt, IKM)`. -/
def hkdfExtract (salt ikm : List Nat) : List Nat := hmacSha256 salt ikm

/-- HKDF-Expand (RFC 5869) specialised to a 32-byte output, the only length
`derive_tenant_key` requests: the output is exactly `T(1) = HMAC(PRK, info || 0x01)`. -/
def hkdfExpand32 (prk info : List Nat) : List Nat := hmacSha256 prk (info ++ [1])

/-- UTF-8 encoding of a Unicode code point. -/
def utf8EncodeChar (n : Nat) : List Nat :=
  if n < 0x80 then [n]
  else if n < 0x800 then [0xC0 ||| (n >>> 6), 0x80 ||| (n &&& 0x3F)]
  else if n < 0x10000 then
    [0xE0 ||| (n >>> 12), 0x80 ||| ((n >>> 6) &&& 0x3F), 0x80 ||| (n &&& 0x3F)]
  else
    [0xF0 ||| (n >>> 18), 0x80 ||| ((n >>> 12) &&& 0x3F), 0x80 ||| ((n >>> 6) &&& 0x3F),
     0x80 ||| (n &&& 0x3F)]

/-- Byte string of a Rust `&str` (`as_bytes()`: UTF-8). -/
def strBytes (s : String) : List Nat := s.data.flatMap (fun c => utf8EncodeChar c.toNat)

/-! ## `derive_tenant_key` (src/backend/src/services/encryption.rs:15-27)

`Hkdf::<Sha256>::new(None, master_key)` uses a salt of 32 zero bytes
(RFC 5869 default); the info string is `"minispace-tenant-<slug>"`, and the
requested output length is 32 bytes. -/

def derive_tenant_key (master_key : List Nat) (tenant : String) : Except String (List Nat) :=
  if master_key.length ≠ 32 then .error "Master key must be exactly 32 bytes"
  else .ok (hkdfExpand32 (hkdfExtract (List.replicate 32 0) master_key)
    (strBytes ("minispace-tenant-" ++ tenant)))

/-! ## AES-256 (FIPS 197)

The block cipher behind the `aes-gcm` crate's `Aes256Gcm`.  A state or
block is a list of 16 bytes; round-key words are 32-bit `Nat`s.  The S-box
is the standard table, packed little-endian into one integer (byte `i` at
bit `8*i`) so that a lookup is a shift and a mask. -/

/-- The AES S-box, packed little-endian into a single integer. -/
def SBOX : Nat :=
  0x16bb54b00f2d99416842e6bf0d89a18cdf2855cee9871e9b948ed9691198f8e19e1dc186b95735610ef6034866b53e708a8bbd4b1f74dde8c6b4a61c2e2578ba08ae7a65eaf4566ca94ed58d6d37c8e779e4959162acd3c25c2406490a3a32e0db0b5ede14b8ee4688902a22dc4f816073195d643d7ea7c41744975fec130ccdd2f3ff1021dab6bcf5389d928f40a351a89f3c507f02f94585334d43fbaaefd0cf584c4a39becb6a5bb1fc20ed00d153842fe329b3d63b52a05a6e1b1a2c830975b227ebe28012079a059618c323c7041531d871f1e5a534ccf73f362693fdb7c072a49cafa2d4adf04759fa7dc982ca76abd7fe2b670130c56f6bf27b777c63

/-- S-box lookup. -/
def sbox (b : Nat) : Nat := (SBOX >>> (8 * b)) &&& 255

/-- Multiplication by x in GF(2^8) modulo x^8+x^4+x^3+x+1. -/
def xtime (a : Nat) : Nat :=
  if a &&& 0x80 = 0 then a <<< 1 else ((a <<< 1) ^^^ 0x1B) &&& 255

/-- Apply the S-box to each byte of a 32-bit word. -/
def subWord (w : Nat) : Nat :=
  (sbox ((w >>> 24) &&& 255) <<< 24) ||| (sbox ((w >>> 16) &&& 255) <<< 16) |||
    (sbox ((w >>> 8) &&& 255) <<< 8) ||| sbox (w &&& 255)

/-- Rotate a 32-bit word left by one byte. -/
def rotWord (w : Nat) : Nat := ((w <<< 8) &&& M32) ||| (w >>> 24)

/-- AES round constants for the 256-bit key schedule. -/
def rcon : List Nat := [0x01, 0x02, 0x04, 0x08, 0x10, 0x20, 0x40]

/-- AES-256 key expansion: 32 key bytes to 60 round-key words. -/
def keyExpansion (key : List Nat) : List Nat :=
  let w0 := (List.range 8).map (fun i =>
    (((key.getD (4 * i) 0 <<< 8 ||| key.getD (4 * i + 1) 0) <<< 8 |||
      key.getD (4 * i + 2) 0) <<< 8) ||| key.getD (4 * i + 3) 0)
  (List.range' 8 52).foldl
    (fun w i =>
      let t := w.getD (i - 1) 0
      let t :=
        if i % 8 = 0 then subWord (rotWord t) ^^^ (rcon.getD (i / 8 - 1) 0 <<< 24)
        else if i % 8 = 4 then subWord t
        else t
      w ++ [w.getD (i - 8) 0 ^^^ t])
    w0

/-- AddRoundKey: xor the state with four round-key words (column-major bytes). -/
def addRoundKey (st w4 : List Nat) : List Nat :=
  (List.range 16).map (fun i =>
    st.getD i 0 ^^^ ((w4.getD (i / 4) 0 >>> (24 - 8 * (i % 4))) &&& 255))

/-- SubBytes. -/
def subBytes (st : List Nat) : List Nat := st.map sbox

/-- ShiftRows on the column-major byte layout: out[4c+r] = st[4((c+r) mod 4)+r]. -/
def shiftRows (st : List Nat) : List Nat :=
  (List.range 16).map (fun i => st.getD (4 * ((i / 4 + i % 4) % 4) + i % 4) 0)

/-- MixColumns. -/
def mixColumns (st : List Nat) : List Nat :=
  (List.range 16).map (fun i =>
    let a := fun j => st.getD (4 * (i / 4) + j) 0
    match i % 4 with
    | 0 => xtime (a 0) ^^^ (xtime (a 1) ^^^ a 1) ^^^ a 2 ^^^ a 3
    | 1 => a 0 ^^^ xtime (a 1) ^^^ (xtime (a 2) ^^^ a 2) ^^^ a 3
    | 2 => a 0 ^^^ a 1 ^^^ xtime (a 2) ^^^ (xtime (a 3) ^^^ a 3)
    | _ => (xtime (a 0) ^^^ a 0) ^^^ a 1 ^^^ a 2 ^^^ xtime (a 3))

/-- AES-256 encryption of one 16-byte block. -/
def aes256EncryptBlock (key block : List Nat) : List Nat :=
  let w := keyExpansion key
  let st0 := addRoundKey block (w.take 4)
  let st := (List.range' 1 13).foldl
    (fun st r => addRoundKey (mixColumns (shiftRows (subBytes st))) ((w.drop (4 * r)).take 4))
    st0
  addRoundKey (shiftRows (subBytes st)) ((w.drop 56).take 4)

/-! ## GCM (NIST SP 800-38D)

Blocks are viewed as 128-bit integers in big-endian byte order for the
GHASH universal hash; the counter-mode keystream operates on byte lists. -/

/-- Big-endian bytes to an integer. -/
def beBytesToNat (bs : List Nat) : Nat := bs.foldl (fun acc b => (acc <<< 8) ||| b) 0

/-- An integer to 16 big-endian bytes. -/
def natToBeBytes16 (n : Nat) : List Nat :=
  (List.range 16).map (fun i => (n >>> (8 * (15 - i))) &&& 255)

/-- The GHASH reduction constant R = 0xE1 followed by 15 zero bytes. -/
def gcmR : Nat := 0xE1000000000000000000000000000000

/-- GF(2^128) multiplication as specified for GHASH (SP 800-38D, 6.3):
iterate over the 128 bits of `y` from the most significant down. -/
def gmul (x y : Nat) : Nat :=
  ((List.range 128).foldl
    (fun zv i =>
      let z := if (y >>> (127 - i)) &&& 1 = 1 then zv.1 ^^^ zv.2 else zv.1
      let v := if zv.2 &&& 1 = 1 then (zv.2 >>> 1) ^^^ gcmR else zv.2 >>> 1
      (z, v))
    (0, x)).1

/-- GHASH over a list of 128-bit blocks with hash subkey `h`. -/
def ghash (h : Nat) (blocks : List Nat) : Nat :=
  blocks.foldl (fun y x => gmul (y ^^^ x) h) 0

/-- Increment the low 32 bits of a 128-bit counter block. -/
def inc32 (n : Nat) : Nat :=
  (n &&& (2 ^ 128 - 2 ^ 32)) ||| ((n + 1) &&& M32)

/-- One counter-mode keystream block. -/
def ksBlock (key : List Nat) (cb : Nat) : List Nat :=
  aes256EncryptBlock key (natToBeBytes16 cb)

/-- Counter mode (GCTR), structurally recursive on a fuel argument so the
kernel can evaluate it; `d.length` steps always suffice. -/
def gctrF (key : List Nat) : Nat → Nat → List Nat → List Nat
  | 0, _, _ => []
  | fuel + 1, cb, d =>
    if d = [] then [] else
      List.zipWith Nat.xor (d.take 16) (ksBlock key cb) ++ gctrF key fuel (inc32 cb) (d.drop 16)

/-- Counter mode (GCTR): xor the data, 16 bytes at a time, with successive
keystream blocks.  Applying it twice with the same key and counter is the
identity, which is how GCM decrypts. -/
def gctr (key : List Nat) (cb : Nat) (d : List Nat) : List Nat :=
  gctrF key d.length cb d

/-- The GHASH input blocks for ciphertext `ct` with no associated data:
the ciphertext chunks zero-padded to 16 bytes, then the length block
`len(A) = 0 || len(C)` in bits. -/
def ghashBlocks (ct : List Nat) : List Nat :=
  (chunksExact 16 ct).map (fun c => beBytesToNat (c ++ List.replicate (16 - c.length) 0)) ++
    [8 * ct.length]

/-- The 16 tag bytes for ciphertext `ct` under `key` and 12-byte `iv`:
`GHASH_H(C, len) xor E_K(J0)` with `J0 = IV || 0^31 || 1`. -/
def gcmTagBytes (key iv ct : List Nat) : List Nat :=
  let h := beBytesToNat (aes256EncryptBlock key (List.replicate 16 0))
  let j0 := beBytesToNat (iv ++ [0, 0, 0, 1])
  natToBeBytes16 (ghash h (ghashBlocks ct) ^^^ beBytesToNat (aes256EncryptBlock key (natToBeBytes16 j0)))

/-- AEAD encryption as the `aes-gcm` crate returns it: ciphertext with the
16-byte tag appended. -/
def gcmEncrypt (key iv pt : List Nat) : List Nat :=
  let j0 := beBytesToNat (iv ++ [0, 0, 0, 1])
  let ct := gctr key (inc32 j0) pt
  ct ++ gcmTagBytes key iv ct

/-- AEAD decryption: split off the trailing 16-byte tag, recompute the tag
over the ciphertext, and decrypt only when they agree. -/
def gcmDecrypt (key iv combined : List Nat) : Option (List Nat) :=
  if combined.length < 16 then none else
    let ct := combined.take (combined.length - 16)
    let tag := combined.drop (combined.length - 16)
    let j0 := beBytesToNat (iv ++ [0, 0, 0, 1])
    if tag = gcmTagBytes key iv ct then some (gctr key (inc32 j0) ct) else none

/-! ## `encrypt_file` / `decrypt_file` (src/backend/src/services/encryption.rs:37-95)

`encrypt_file` samples a fresh 12-byte IV from `OsRng`; the sampled bytes
are passed here explicitly as the `iv` argument.  The AEAD output is split
with `saturating_sub` exactly as in the source (`Nat` subtraction is
saturating).  `decrypt_file` checks the IV and tag lengths, recombines
ciphertext and tag, and fails with the decryption-failed error on a tag
mismatch — an error distinct from the length errors and from any
"file missing" condition of the callers. -/

inductive DecryptFileError
  /-- "IV must be exactly 12 bytes" -/
  | ivLength
  /-- "Authentication tag must be exactly 16 bytes" -/
  | tagLength
  /-- "Decryption failed (data may be corrupted or tampered)" -/
  | decryptionFailed
deriving DecidableEq

/-- `encrypt_file(plaintext, key)` with the IV sampled by `OsRng` made
explicit; returns `(ciphertext, iv, tag)`. -/
def encrypt_file (plaintext key iv : List Nat) : List Nat × List Nat × List Nat :=
  let ciphertext := gcmEncrypt key iv plaintext
  let tagStart := ciphertext.length - 16
  (ciphertext.take tagStart, iv, ciphertext.drop tagStart)

/-- `decrypt_file(ciphertext, iv, tag, key)`. -/
def decrypt_file (ciphertext iv tag key : List Nat) : Except DecryptFileError (List Nat) :=
  if iv.length ≠ 12 then .error .ivLength
  else if tag.length ≠ 16 then .error .tagLength
  else
    match gcmDecrypt key iv (ciphertext ++ tag) with
    | some pt => .ok pt
    | none => .error .decryptionFailed

/-! ## The AuthService state machine (src/backend/src/services/auth.rs)

The service is stateless; all state lives in the tenant's schema.  The
embedding passes a `Db` value (the rows of the tenant-scoped tables the
service reads and writes) explicitly and returns the updated value with
the result, mirroring each SQL statement with a list operation.

Modelling choices, each noted where used:

* UUIDs are `Nat`; `Uuid::new_v4()`'s collision-freeness is modelled by a
  fresh-id counter `nextId` in the state (every drawn id is the counter,
  which is then bumped).
* A UUID rendered into a string (JWT `sub`/`jti` claims, the id half of
  the device cookie) is the type `UuidStr`: `render u` is `u.to_string()`
  and `junk s` any string `Uuid::parse_str` rejects.
* bcrypt is modelled as a perfect hash: `BcryptHash.make v cost` records
  the hashed value, and verification compares it.  The cost (8 for
  tokens and device secrets, 12 for passwords, as in the source) is
  recorded but does not affect verification.
* JWTs are modelled by `Jwt`: `signed c s` is a token carrying claims `c`
  signed with secret `s`; `garbage s` any string that fails signature
  validation.  `decode` with `jsonwebtoken`'s default `Validation`
  accepts a token iff the secret matches and `exp` has not passed by
  more than the default 60-second leeway.
* Timestamps are `Int` seconds; `Utc::now()` is an explicit `now`
  argument, constant within one service call.
* Random draws (the 6-digit 2FA code, the 48-character device secret)
  are explicit arguments.
* The `public.garderies` name lookup is the `garderieName` field.
* Row fields that never influence control flow or the claims
  (names, avatar, locale, timestamps of users) are omitted. -/

/-- A string holding either a rendered UUID or text `Nat::parse_str` rejects. -/
inductive UuidStr
  | render (u : Nat)
  | junk (s : String)
deriving DecidableEq

/-- `str::parse::<Nat>()`. -/
def UuidStr.parse : UuidStr → Option Nat
  | .render u => some u
  | .junk _ => none

/-- bcrypt as a perfect hash: the hash of `v` at the given cost. -/
structure BcryptHash (α : Type) where
  value : α
  cost : Nat
deriving DecidableEq

/-- `bcrypt::hash(v, cost)` (the random salt does not affect verification
and is not modelled). -/
def bcryptHash {α : Type} (v : α) (cost : Nat) : BcryptHash α := ⟨v, cost⟩

/-- `bcrypt::verify(v, h)`. -/
def bcryptVerify {α : Type} [DecidableEq α] (v : α) (h : BcryptHash α) : Bool :=
  v = h.value

/-- `models::user::UserRole`. -/
inductive UserRole
  | superAdmin
  | adminGarderie
  | educateur
  | parent
deriving DecidableEq

/-- `role.parse().unwrap_or(UserRole::Parent)`. -/
def parseRole (s : String) : UserRole :=
  if s = "super_admin" then .superAdmin
  else if s = "admin_garderie" then .adminGarderie
  else if s = "educateur" then .educateur
  else .parent

/-- Access-token claims (`models::auth::Claims`). -/
structure Claims where
  sub : UuidStr
  tenant : String
  role : UserRole
  iat : Int
  exp : Int
deriving DecidableEq

/-- Refresh-token claims (`models::auth::RefreshClaims`). -/
structure RefreshClaims where
  sub : UuidStr
  jti : UuidStr
  iat : Int
  exp : Int
deriving DecidableEq

/-- A JWT-shaped string: either a token signed with some secret, or a
string that fails signature validation. -/
inductive Jwt (C : Type)
  | signed (claims : C) (secret : String)
  | garbage (s : String)
deriving DecidableEq

/-- `jsonwebtoken::decode` with `Validation::new(HS256)`: the signature
must verify and `exp` must not be more than the default 60-second leeway
in the past. -/
def decodeRefresh (tok : Jwt RefreshClaims) (secret : String) (now : Int) :
    Option RefreshClaims :=
  match tok with
  | .signed c s => if s = secret ∧ now - 60 ≤ c.exp then some c else none
  | .garbage _ => none

/-- A row of `{schema}.users` (the fields `AuthService` reads). -/
structure UserRow where
  id : Nat
  email : String
  passwordHash : BcryptHash String
  role : String
  isActive : Bool
deriving DecidableEq

/-- A row of `{schema}.refresh_tokens`. -/
structure RefreshTokenRow where
  id : Nat
  userId : Nat
  tokenHash : BcryptHash (Jwt RefreshClaims)
  expiresAt : Int
  revoked : Bool
deriving DecidableEq

/-- A row of `{schema}.two_factor_codes`. -/
structure TwoFactorRow where
  id : Nat
  userId : Nat
  code : String
  expiresAt : Int
  used : Bool
  attempts : Int
  createdAt : Int
deriving DecidableEq

/-- A row of `{schema}.trusted_devices`. -/
structure TrustedDeviceRow where
  id : Nat
  userId : Nat
  tokenHash : BcryptHash String
  expiresAt : Int
deriving DecidableEq

/-- The tenant-scoped state `AuthService` reads and writes. -/
structure Db where
  /-- Whether the tenant schema exists (`pg_namespace` probe in `login`). -/
  schemaExists : Bool
  users : List UserRow
  refreshTokens : List RefreshTokenRow
  twoFactorCodes : List TwoFactorRow
  trustedDevices : List TrustedDeviceRow
  /-- `SELECT name FROM public.garderies WHERE slug = $1`. -/
  garderieName : Option String
  /-- Fresh-id counter modelling `Uuid::new_v4()` collision-freeness. -/
  nextId : Nat
deriving DecidableEq

/-- The error taxonomy of `AuthService` (each constructor lists the
`anyhow` message it models). -/
inductive AuthErr
  /-- "Garderie introuvable : verifiez l'identifiant garderie" -/
  | tenantNotFound
  /-- "Identifiants invalides" -/
  | invalidCredentials
  /-- "Service email non configure (SMTP requis pour la 2FA)" -/
  | emailNotConfigured
  /-- "Impossible d'envoyer le code 2FA : ..." -/
  | emailSendFailed
  /-- "Code invalide ou expire. Veuillez vous reconnecter." -/
  | codeExpiredOrMissing
  /-- "Trop de tentatives. Veuillez vous reconnecter pour obtenir un nouveau code." -/
  | tooManyAttempts
  /-- "Code invalide" -/
  | invalidCode
  /-- A `jsonwebtoken::decode` error propagated by `?`. -/
  | tokenInvalid
  /-- A `jti.parse::<Nat>()` error propagated by `?`. -/
  | jtiParseFailed
  /-- A `sub.parse::<Nat>()` error propagated by `?`. -/
  | subParseFailed
  /-- "Refresh token not found or revoked" -/
  | tokenRevokedOrUnknown
  /-- "Refresh token expired" -/
  | tokenExpired
  /-- "Refresh token invalid" -/
  | tokenMismatch
  /-- `fetch_one` on a missing/inactive user, or "Utilisateur non trouve" -/
  | userNotFound
  /-- "Mot de passe actuel incorrect" -/
  | wrongCurrentPassword
deriving DecidableEq

/-- The value half of a trusted-device cookie.  `generate_device_token`
formats it as `"{id}.{secret}"`; `splitn(2, '.')` recovers
`split idPart secret` from any string containing a dot and `whole s`
from one without. -/
inductive CookieVal
  | split (idPart : UuidStr) (secret : String)
  | whole (s : String)
deriving DecidableEq

/-- `models::user::LoginResponse` (the fields the claims mention). -/
structure LoginResponse where
  accessToken : Jwt Claims
  refreshToken : Jwt RefreshClaims
  userId : Nat
  garderieName : String
deriving DecidableEq

/-- `services::auth::LoginOutcome`. -/
inductive LoginOutcome
  | twoFactorRequired (garderieName : String)
  | authenticated (response : LoginResponse) (deviceToken : CookieVal)
deriving DecidableEq

/-- `generate_access_token_with_role`. -/
def generate_access_token (u : UserRow) (role : UserRole) (tenant : String)
    (secret : String) (accessTtl : Int) (now : Int) : Jwt Claims :=
  .signed ⟨.render u.id, tenant, role, now, now + accessTtl⟩ secret

/-- `generate_refresh_token`: mints the JWT and returns it with its `jti`.
The fresh `Nat::new_v4()` is the caller-supplied `jti`. -/
def generate_refresh_token (userId : Nat) (jti : Nat) (secret : String)
    (refreshTtlDays : Int) (now : Int) : Jwt RefreshClaims :=
  .signed ⟨.render userId, .render jti, now, now + refreshTtlDays * 86400⟩ secret

/-- `SELECT ... FROM users WHERE email = $1 AND is_active = TRUE` via
`fetch_optional`. -/
def findUserByEmail (db : Db) (email : String) : Option UserRow :=
  db.users.find? (fun u => u.email = email && u.isActive)

/-- `SELECT ... FROM users WHERE id = $1 AND is_active = TRUE`. -/
def findUserById (db : Db) (id : Nat) : Option UserRow :=
  db.users.find? (fun u => u.id = id && u.isActive)

/-- `validate_device_token` (auth.rs:218-239): split the cookie value,
parse the id, look up by id, user and expiry, verify the secret. -/
def validate_device_token (db : Db) (userId : Nat) (cookieValue : CookieVal)
    (now : Int) : Bool :=
  match cookieValue with
  | .whole _ => false
  | .split idPart secret =>
    match idPart.parse with
    | none => false
    | some id =>
      match db.trustedDevices.find?
          (fun d => d.id = id && d.userId = userId && now < d.expiresAt) with
      | none => false
      | some d => bcryptVerify secret d.tokenHash

/-- `generate_device_token` (auth.rs:193-215): a fresh row id and the
supplied random 48-character secret; inserts the hash with a 30-day
expiry and returns the composite cookie value with the updated state. -/
def generate_device_token (db : Db) (userId : Nat) (secret : String) (now : Int) :
    CookieVal × Db :=
  let id := db.nextId
  (CookieVal.split (.render id) secret,
    { db with
      trustedDevices := db.trustedDevices ++ [⟨id, userId, bcryptHash secret 8, now + 30 * 86400⟩],
      nextId := db.nextId + 1 })

/-- `revoke_device_token` (auth.rs:242-255): best-effort delete by the id
half of the cookie; a malformed value is a no-op. -/
def revoke_device_token (db : Db) (cookieValue : CookieVal) : Db :=
  match cookieValue with
  | .whole _ => db
  | .split idPart _ =>
    match idPart.parse with
    | none => db
    | some id => { db with trustedDevices := db.trustedDevices.filter (fun d => d.id ≠ id) }

/-- Mark every unused 2FA code of the user used:
`UPDATE two_factor_codes SET used = TRUE WHERE user_id = $1 AND used = FALSE`. -/
def invalidateCodes (codes : List TwoFactorRow) (userId : Nat) : List TwoFactorRow :=
  codes.map (fun c => if c.userId = userId && !c.used then { c with used := true } else c)

/-- The token-issuing tail shared verbatim by the device-trusted branch of
`login` (auth.rs:95-136) and the success tail of `verify_2fa`
(auth.rs:318-360): issue the access token, mint the refresh token with a
fresh `jti`, insert its row, then issue a fresh trusted-device token.
Returns `((response, deviceCookie), updatedState)`. -/
def issueSession (db : Db) (user : UserRow) (tenant jwtSecret refreshSecret : String)
    (accessTtl refreshTtlDays now : Int) (deviceSecret : String) :
    (LoginResponse × CookieVal) × Db :=
  let role := parseRole user.role
  let accessToken := generate_access_token user role tenant jwtSecret accessTtl now
  let jti := db.nextId
  let refreshToken := generate_refresh_token user.id jti refreshSecret refreshTtlDays now
  let db1 : Db := { db with
    refreshTokens := db.refreshTokens ++
      [⟨jti, user.id, bcryptHash refreshToken 8, now + refreshTtlDays * 86400, false⟩],
    nextId := db.nextId + 1 }
  ((⟨accessToken, refreshToken, user.id, db.garderieName.getD tenant⟩,
      (generate_device_token db1 user.id deviceSecret now).1),
    (generate_device_token db1 user.id deviceSecret now).2)

/-- The 2FA branch of `login` (auth.rs:140-188): require a configured
email service, invalidate the user's previous unused codes, insert one
fresh 6-digit code with a 15-minute expiry, and send it (a send failure
aborts the attempt — after the code row was already written). -/
def loginRequire2fa (db : Db) (user : UserRow) (tenant : String)
    (emailConfigured emailSendOk : Bool) (now : Int) (codeVal : Nat) :
    Db × Except AuthErr LoginOutcome :=
  if !emailConfigured then (db, .error .emailNotConfigured)
  else
    let db1 : Db := { db with
      twoFactorCodes := invalidateCodes db.twoFactorCodes user.id ++
        [⟨db.nextId, user.id, toString codeVal, now + 15 * 60, false, 0, now⟩],
      nextId := db.nextId + 1 }
    if emailSendOk then
      (db1, .ok (.twoFactorRequired (db.garderieName.getD tenant)))
    else (db1, .error .emailSendFailed)

/-- `login` (auth.rs:50-189).  Explicit inputs beyond the Rust arguments:
`now` (`Utc::now()`), `codeVal` (the `gen_range(100000..=999999)` draw),
`deviceSecret` (the 48-character alphanumeric draw used if the trusted
branch issues a new device token), `emailSendOk` (whether
`send_2fa_code` succeeds).  `emailConfigured` models `email_svc:
Option<&EmailService>`. -/
def login (db : Db) (emailConfigured emailSendOk : Bool) (tenant email password : String)
    (deviceToken : Option CookieVal) (jwtSecret refreshSecret : String)
    (accessTtl refreshTtlDays : Int) (now : Int) (codeVal : Nat) (deviceSecret : String) :
    Db × Except AuthErr LoginOutcome :=
  if !db.schemaExists then (db, .error .tenantNotFound) else
  match findUserByEmail db email with
  | none => (db, .error .invalidCredentials)
  | some user =>
    if !bcryptVerify password user.passwordHash then (db, .error .invalidCredentials)
    else
      match deviceToken with
      | some cookieVal =>
        if validate_device_token db user.id cookieVal now then
          -- Device-trusted branch: skip 2FA, issue the session,
          -- and a fresh device token (rolling 30-day window).
          let r := issueSession db user tenant jwtSecret refreshSecret
            accessTtl refreshTtlDays now deviceSecret
          (r.2, .ok (.authenticated r.1.1 r.1.2))
        else loginRequire2fa db user tenant emailConfigured emailSendOk now codeVal
      | none => loginRequire2fa db user tenant emailConfigured emailSendOk now codeVal

/-- The most recent active code:
`WHERE user_id = $1 AND used = FALSE AND expires_at > NOW() ORDER BY
created_at DESC LIMIT 1` (on a `created_at` tie, the later row of the
list, matching insertion order). -/
def latestActiveCode (codes : List TwoFactorRow) (userId : Nat) (now : Int) :
    Option TwoFactorRow :=
  (codes.filter (fun c => c.userId = userId && !c.used && now < c.expiresAt)).foldl
    (fun acc c => match acc with
      | none => some c
      | some b => if b.createdAt ≤ c.createdAt then some c else some b)
    none

/-- `verify_2fa` (auth.rs:258-361).  On success returns the login response
and the new device-token cookie value. -/
def verify_2fa (db : Db) (tenant email code : String) (jwtSecret refreshSecret : String)
    (accessTtl refreshTtlDays : Int) (now : Int) (deviceSecret : String) :
    Db × Except AuthErr (LoginResponse × CookieVal) :=
  match findUserByEmail db email with
  | none => (db, .error .invalidCredentials)
  | some user =>
    match latestActiveCode db.twoFactorCodes user.id now with
    | none => (db, .error .codeExpiredOrMissing)
    | some row =>
      if 3 ≤ row.attempts then (db, .error .tooManyAttempts)
      else
        -- Increment attempts first, then compare.
        let db1 : Db := { db with
          twoFactorCodes := db.twoFactorCodes.map (fun c =>
            if c.id = row.id then { c with attempts := c.attempts + 1 } else c) }
        if code ≠ row.code then (db1, .error .invalidCode)
        else
          let db2 : Db := { db1 with
            twoFactorCodes := db1.twoFactorCodes.map (fun c =>
              if c.id = row.id then { c with used := true } else c) }
          let r := issueSession db2 user tenant jwtSecret refreshSecret
            accessTtl refreshTtlDays now deviceSecret
          (r.2, .ok r.1)

/-- The tail of `refresh` after the old row was revoked
(auth.rs:465-508): fetch the user (`fetch_one` errors on a missing or
inactive user, with the revocation already committed), mint the new
access/refresh pair and persist the new refresh row. -/
def refreshRotate (db1 : Db) (tenant : String) (userId : Nat)
    (jwtSecret refreshSecret : String) (accessTtl refreshTtlDays now : Int) :
    Db × Except AuthErr LoginResponse :=
  match findUserById db1 userId with
  | none => (db1, .error .userNotFound)
  | some user =>
    let role := parseRole user.role
    let accessToken := generate_access_token user role tenant jwtSecret accessTtl now
    let newJti := db1.nextId
    let newRefresh := generate_refresh_token user.id newJti refreshSecret refreshTtlDays now
    let db2 : Db := { db1 with
      refreshTokens := db1.refreshTokens ++
        [⟨newJti, user.id, bcryptHash newRefresh 8, now + refreshTtlDays * 86400, false⟩],
      nextId := db1.nextId + 1 }
    (db2, .ok ⟨accessToken, newRefresh, user.id, db1.garderieName.getD tenant⟩)

/-- `refresh` (auth.rs:418-509): decode, look up the row by `jti` with
`revoked = FALSE`, check the DB expiry, verify the hash, revoke the old
row, then mint and persist a new pair. -/
def refresh (db : Db) (tenant : String) (refreshTokenStr : Jwt RefreshClaims)
    (jwtSecret refreshSecret : String) (accessTtl refreshTtlDays : Int) (now : Int) :
    Db × Except AuthErr LoginResponse :=
  match decodeRefresh refreshTokenStr refreshSecret now with
  | none => (db, .error .tokenInvalid)
  | some rc =>
    match rc.jti.parse with
    | none => (db, .error .jtiParseFailed)
    | some jti =>
      match rc.sub.parse with
      | none => (db, .error .subParseFailed)
      | some userId =>
        match db.refreshTokens.find? (fun r => r.id = jti && !r.revoked) with
        | none => (db, .error .tokenRevokedOrUnknown)
        | some stored =>
          if stored.expiresAt < now then (db, .error .tokenExpired)
          else if !bcryptVerify refreshTokenStr stored.tokenHash then
            (db, .error .tokenMismatch)
          else
            -- Revoke the old token, then fetch the user and mint a new pair.
            refreshRotate
              { db with refreshTokens := db.refreshTokens.map (fun r =>
                  if r.id = jti then { r with revoked := true } else r) }
              tenant userId jwtSecret refreshSecret accessTtl refreshTtlDays now

/-- The trusted-device half of `logout` (auth.rs:537-539): best-effort
revocation when a cookie was presented. -/
def logoutDevice (db : Db) (deviceToken : Option CookieVal) : Db :=
  match deviceToken with
  | some cookieVal => revoke_device_token db cookieVal
  | none => db

/-- `logout` (auth.rs:512-542): if the token decodes, parse its `jti`
(the one `?` that can fail, returning before the device-cookie handling)
and revoke the row; then best-effort delete the trusted-device row. -/
def logout (db : Db) (tenant : String) (refreshTokenStr : Jwt RefreshClaims)
    (refreshSecret : String) (deviceToken : Option CookieVal) (now : Int) :
    Db × Except AuthErr Unit :=
  match decodeRefresh refreshTokenStr refreshSecret now with
  | none => (logoutDevice db deviceToken, .ok ())
  | some rc =>
    match rc.jti.parse with
    | none => (db, .error .jtiParseFailed)
    | some jti =>
      (logoutDevice
        { db with refreshTokens := db.refreshTokens.map (fun r =>
            if r.id = jti then { r with revoked := true } else r) }
        deviceToken, .ok ())

/-- `change_password` (auth.rs:864-908): verify the current password,
store the new hash (cost 12), then revoke all the user's refresh tokens
on the success path. -/
def change_password (db : Db) (tenant : String) (userId : Nat)
    (currentPassword newPassword : String) (now : Int) : Db × Except AuthErr Unit :=
  match findUserById db userId with
  | none => (db, .error .userNotFound)
  | some user =>
    if !bcryptVerify currentPassword user.passwordHash then
      (db, .error .wrongCurrentPassword)
    else
      let db1 : Db := { db with
        users := db.users.map (fun u =>
          if u.id = userId then { u with passwordHash := bcryptHash newPassword 12 } else u) }
      let db2 : Db := { db1 with
        refreshTokens := db1.refreshTokens.map (fun r =>
          if r.userId = userId then { r with revoked := true } else r) }
      (db2, .ok ())

/-- One caller-visible `AuthService` operation on the tenant state, with
arbitrary arguments: the step relation quantifying "any later call". -/
inductive Step : Db → Db → Prop
  | login (db : Db) (ec eo : Bool) (t e p : String) (d : Option CookieVal)
      (js rs : String) (at_ rd now : Int) (cv : Nat) (ds : String) :
      Step db (login db ec eo t e p d js rs at_ rd now cv ds).1
  | verify_2fa (db : Db) (t e c js rs : String) (at_ rd now : Int) (ds : String) :
      Step db (verify_2fa db t e c js rs at_ rd now ds).1
  | refresh (db : Db) (t : String) (tok : Jwt RefreshClaims) (js rs : String)
      (at_ rd now : Int) :
      Step db (refresh db t tok js rs at_ rd now).1
  | logout (db : Db) (t : String) (tok : Jwt RefreshClaims) (rs : String)
      (d : Option CookieVal) (now : Int) :
      Step db (logout db t tok rs d now).1
  | change_password (db : Db) (t : String) (uid : Nat) (cp np : String) (now : Int) :
      Step db (change_password db t uid cp np now).1

/-- Zero or more operations. -/
def StepStar : Db → Db → Prop := Relation.ReflTransGen Step

/-- Every stored row id was drawn from the fresh-id counter: the
well-formedness every reachable state satisfies, needed to know a newly
drawn id collides with no existing row. -/
def GoodDb (db : Db) : Prop :=
  (∀ r ∈ db.refreshTokens, r.id < db.nextId) ∧
    (∀ c ∈ db.twoFactorCodes, c.id < db.nextId) ∧
    (∀ d ∈ db.trustedDevices, d.id < db.nextId)

instance (db : Db) : Decidable (GoodDb db) := by
  unfold GoodDb; infer_instance

/-- The replay condition for a `jti`: the id is stale (below the
counter, so no future insert reuses it) and every row bearing it is
revoked. -/
def Replayed (db : Db) (jti : Nat) : Prop :=
  jti < db.nextId ∧ ∀ r ∈ db.refreshTokens, r.id = jti → r.revoked

instance (db : Db) (jti : Nat) : Decidable (Replayed db jti) := by
  unfold Replayed; infer_instance

deriving instance DecidableEq for Except

/-- How one operation may change the refresh-token table: the fresh-id
counter never decreases, and every row afterwards either descends from a
row it already held — same id, revocation never undone — or is a newly
inserted row whose id the counter had not yet handed out. -/
def RefreshEvolves (db db' : Db) : Prop :=
  db.nextId ≤ db'.nextId ∧
    ∀ r' ∈ db'.refreshTokens,
      (∃ r ∈ db.refreshTokens, r'.id = r.id ∧ (r.revoked → r'.revoked)) ∨ db.nextId ≤ r'.id

/-- The `jti` a refresh-token string names, when it names one. -/
def tokJti : Jwt RefreshClaims → Option Nat
  | .signed c _ => c.jti.parse
  | .garbage _ => none

/-- Whether an `Except` result is a success. -/
def isOkE {ε α : Type} : Except ε α → Bool
  | .ok _ => true
  | .error _ => false

/-- Whether a login outcome is the device-trusted/authenticated success. -/
def isAuthenticatedE : Except AuthErr LoginOutcome → Bool
  | .ok (.authenticated _ _) => true
  | _ => false

/-- The user's 2FA codes that are unused. -/
def unusedCodeCount (db : Db) (uid : Nat) : Nat :=
  db.twoFactorCodes.countP (fun c => c.userId = uid && !c.used)

/-- The user's active codes: unused and unexpired at `now`. -/
def activeCodeCount (db : Db) (uid : Nat) (now : Int) : Nat :=
  db.twoFactorCodes.countP (fun c => c.userId = uid && !c.used && now < c.expiresAt)

/-- Flip bit `b` of byte `i` of a byte string: the single-bit
modifications of the AEAD integrity property. -/
def flipBit (l : List Nat) (i b : Nat) : List Nat :=
  l.set i (l.getD i 0 ^^^ (1 <<< b))

/-! ## Concrete states for the witnesses and counterexamples -/

/-- A tenant user: id 1, known password. -/
def exUser : UserRow := ⟨1, "amelie@acme.test", bcryptHash "hunter2" 12, "parent", true⟩

/-- A trusted-device row for that user: id 2, secret `"s48"`, unexpired at 0. -/
def exDevRow : TrustedDeviceRow := ⟨2, 1, bcryptHash "s48" 8, 1000000⟩

/-- The cookie value matching `exDevRow`. -/
def exCookie : CookieVal := .split (.render 2) "s48"

/-- A tenant state holding `exUser` and `exDevRow`. -/
def exDb : Db := ⟨true, [exUser], [], [], [exDevRow], some "Acme", 3⟩

/-- A refresh token for `exUser` with jti 5. -/
def exRefreshTok : Jwt RefreshClaims :=
  .signed ⟨.render 1, .render 5, 0, 2592000⟩ "rsec"

/-- A tenant state holding `exUser` and the stored row of `exRefreshTok`. -/
def exDbTok : Db :=
  ⟨true, [exUser], [⟨5, 1, bcryptHash exRefreshTok 8, 2592000, false⟩], [], [], some "Acme", 6⟩

/-- A signed refresh token whose `jti` claim is not a parseable UUID. -/
def exBadJtiTok : Jwt RefreshClaims :=
  .signed ⟨.render 1, .junk "not-a-uuid", 0, 2592000⟩ "rsec"

/-- A tenant state with one fresh (attempts 0) 2FA code `"123456"` for `exUser`. -/
def exDbCode : Db :=
  ⟨true, [exUser], [], [⟨7, 1, "123456", 900, false, 0, 0⟩], [], some "Acme", 8⟩

/-- Three failed `verify_2fa` attempts on `exDbCode` with the wrong code. -/
def exDbCode3 : Db :=
  ((verify_2fa ((verify_2fa ((verify_2fa exDbCode "acme" "amelie@acme.test" "000000"
    "js" "rs" 900 30 0 "d1").1) "acme" "amelie@acme.test" "000001"
    "js" "rs" 900 30 0 "d2").1) "acme" "amelie@acme.test" "000002"
    "js" "rs" 900 30 0 "d3").1)

/-! # Theorems -/

/-! ## Generic helpers -/

/-- A property preserved by each step of a left fold holds of the result. -/
theorem foldl_preserve {α β : Type} (f : β → α → β) (P : β → Prop) :
    ∀ (l : List α) (b : β), P b → (∀ b a, P b → P (f b a)) → P (l.foldl f b) := by
  intro l
  induction l with
  | nil => intro b hb _; exact hb
  | cons x xs ih => intro b hb hf; exact ih _ (hf _ _ hb) hf

/-! ## C10 — `schema_name` -/

/-- C10: `schema_name` maps a slug to `"garderie_"` followed by the slug
lowercased with `'-'` replaced by `'_'`; it is not injective: the distinct
slugs `"a-b"` and `"A_B"` share the schema name `"garderie_a_b"`, so every
tenant-qualified query for either targets the same namespace. -/
theorem schema_name_collision :
    (∀ slug : String, schema_name slug =
      "garderie_" ++ String.mk (slug.data.map (fun c => if c.toLower = '-' then '_' else c.toLower)))
    ∧ schema_name "a-b" = "garderie_a_b"
    ∧ schema_name "A_B" = "garderie_a_b"
    ∧ schema_name "a-b" = schema_name "A_B"
    ∧ "a-b" ≠ "A_B" :=
  ⟨fun _ => rfl, by decide, by decide, by decide, by decide⟩

set_option maxRecDepth 4000

/-! ## Length of the SHA-256 output -/

/-- One compression round always yields an 8-word state. -/
theorem shaCompressStep_length (w hs : List Nat) (i : Nat) :
    (shaCompressStep w hs i).length = 8 := rfl

/-- Processing a block preserves the 8-word state. -/
theorem sha256Block_length (hs block : List Nat) (h : hs.length = 8) :
    (sha256Block hs block).length = 8 := by
  unfold sha256Block
  have hout :
      ((List.range 64).foldl (shaCompressStep (msgSchedule (bytesToWords block))) hs).length
        = 8 :=
    foldl_preserve _ (fun b : List Nat => b.length = 8) _ _ h (fun _ _ _ => rfl)
  simp [List.length_zipWith, h, hout]

/-- SHA-256 always returns 32 bytes. -/
theorem sha256_length (msg : List Nat) : (sha256 msg).length = 32 := by
  unfold sha256
  have h8 : ((chunksExact 64 (sha256Pad msg)).foldl sha256Block shaH0).length = 8 :=
    foldl_preserve _ (fun b : List Nat => b.length = 8) _ _ rfl
      (fun b a hb => sha256Block_length b a hb)
  have hflat : ∀ hs : List Nat, (hs.flatMap wordBytes).length = 4 * hs.length := by
    intro hs
    induction hs with
    | nil => rfl
    | cons x xs ih => simp only [List.flatMap_cons, List.length_append, ih, List.length_cons]
                      simp [wordBytes]; omega
  rw [hflat, h8]

/-! ## C8 — `derive_tenant_key` -/

/-- C8: `derive_tenant_key` succeeds with a 32-byte key exactly on 32-byte
master keys; it is deterministic (identical inputs give identical
output — the embedding draws no randomness, matching the source, which
calls only HKDF-SHA256 on its inputs); and it separates tenants, shown at
the all-zero master key of the specification's concrete scenario:
`derive(0^32, "a") ≠ derive(0^32, "b")`. -/
theorem derive_tenant_key_deterministic_and_separating :
    (∀ mk t, mk.length = 32 → ∃ k, derive_tenant_key mk t = .ok k ∧ k.length = 32)
    ∧ (∀ mk1 mk2 t1 t2, mk1 = mk2 → t1 = t2 →
        derive_tenant_key mk1 t1 = derive_tenant_key mk2 t2)
    ∧ derive_tenant_key (List.replicate 32 0) "a" ≠ derive_tenant_key (List.replicate 32 0) "b" := by
  refine ⟨?_, ?_, ?_⟩
  · intro mk t h
    refine ⟨hkdfExpand32 (hkdfExtract (List.replicate 32 0) mk)
      (strBytes ("minispace-tenant-" ++ t)), by simp [derive_tenant_key, h], ?_⟩
    simp only [hkdfExpand32, hmacSha256]
    exact sha256_length _
  · rintro mk1 mk2 t1 t2 rfl rfl; rfl
  · decide

/-- Witness for C8: the all-zero master key is 32 bytes long, and the
derivation for tenant `"acme"` returns a 32-byte key. -/
theorem derive_tenant_key_witness :
    ∃ k, derive_tenant_key (List.replicate 32 0) "acme" = .ok k ∧ k.length = 32 :=
  derive_tenant_key_deterministic_and_separating.1 (List.replicate 32 0) "acme" (by simp)

/-! ## GCM structure lemmas -/

/-- An AES block is always 16 bytes. -/
theorem aes256EncryptBlock_length (key block : List Nat) :
    (aes256EncryptBlock key block).length = 16 := by
  simp [aes256EncryptBlock, addRoundKey]

/-- A keystream block is 16 bytes. -/
theorem ksBlock_length (key : List Nat) (cb : Nat) : (ksBlock key cb).length = 16 :=
  aes256EncryptBlock_length key _

/-- The fuelled GCTR on the empty list. -/
theorem gctrF_nil (key : List Nat) (fuel cb : Nat) : gctrF key fuel cb [] = [] := by
  cases fuel <;> simp [gctrF]

/-- GCTR preserves length (given enough fuel). -/
theorem gctrF_length (key : List Nat) :
    ∀ (fuel cb : Nat) (d : List Nat), d.length ≤ fuel →
      (gctrF key fuel cb d).length = d.length := by
  intro fuel
  induction fuel with
  | zero =>
    intro cb d h
    have : d = [] := List.length_eq_zero.mp (Nat.le_zero.mp h)
    subst this; rfl
  | succ n ih =>
    intro cb d h
    by_cases hd : d = []
    · subst hd; simp [gctrF]
    · have hpos : 0 < d.length := List.length_pos.mpr hd
      have hdrop : (d.drop 16).length ≤ n := by
        rw [List.length_drop]; omega
      simp only [gctrF, if_neg hd, List.length_append, List.length_zipWith,
        ksBlock_length, List.length_take, ih _ _ hdrop, List.length_drop]
      omega

/-- `gctr` preserves length. -/
theorem gctr_len (key : List Nat) (cb : Nat) (d : List Nat) :
    (gctr key cb d).length = d.length :=
  gctrF_length key d.length cb d le_rfl

/-- Xoring twice against the same (long enough) keystream is the identity. -/
theorem zipWith_xor_cancel :
    ∀ (d ks : List Nat), d.length ≤ ks.length →
      List.zipWith Nat.xor (List.zipWith Nat.xor d ks) ks = d := by
  intro d
  induction d with
  | nil => intro ks _; simp
  | cons x xs ih =>
    intro ks h
    cases ks with
    | nil => simp at h
    | cons k ks2 =>
      have h2 : xs.length ≤ ks2.length := by simpa using h
      simp only [List.zipWith_cons_cons]
      rw [ih ks2 h2]
      show ((x ^^^ k) ^^^ k) :: xs = x :: xs
      rw [Nat.xor_cancel_right]

/-- GCTR is an involution (given enough fuel). -/
theorem gctrF_involution (key : List Nat) :
    ∀ (fuel cb : Nat) (d : List Nat), d.length ≤ fuel →
      gctrF key fuel cb (gctrF key fuel cb d) = d := by
  intro fuel
  induction fuel with
  | zero =>
    intro cb d h
    have : d = [] := List.length_eq_zero.mp (Nat.le_zero.mp h)
    subst this; rfl
  | succ n ih =>
    intro cb d h
    by_cases hd : d = []
    · subst hd; simp [gctrF]
    · have hpos : 0 < d.length := List.length_pos.mpr hd
      have hElen : (List.zipWith Nat.xor (d.take 16) (ksBlock key cb)).length
          = min d.length 16 := by
        simp only [List.length_zipWith, ksBlock_length, List.length_take]
        omega
      have hinner : gctrF key (n + 1) cb d =
          List.zipWith Nat.xor (d.take 16) (ksBlock key cb) ++
            gctrF key n (inc32 cb) (d.drop 16) := by
        simp only [gctrF, if_neg hd]
      rw [hinner]
      have hEne : List.zipWith Nat.xor (d.take 16) (ksBlock key cb) ++
          gctrF key n (inc32 cb) (d.drop 16) ≠ [] := by
        intro hcon
        have := congrArg List.length hcon
        simp only [List.length_append, hElen, List.length_nil] at this
        omega
      simp only [gctrF, if_neg hEne]
      by_cases hle : d.length ≤ 16
      · have hdrop : d.drop 16 = [] := List.drop_of_length_le hle
        have htake : d.take 16 = d := List.take_of_length_le hle
        rw [hdrop, gctrF_nil, List.append_nil]
        have hElen2 : (List.zipWith Nat.xor (d.take 16) (ksBlock key cb)).length ≤ 16 := by
          rw [hElen]; omega
        rw [List.take_of_length_le hElen2, List.drop_of_length_le hElen2, gctrF_nil,
          List.append_nil]
        rw [zipWith_xor_cancel _ _ (by rw [List.length_take, ksBlock_length]; omega)]
        exact htake
      · have h16 : (List.zipWith Nat.xor (d.take 16) (ksBlock key cb)).length = 16 := by
          rw [hElen]; omega
        rw [List.take_left' h16, List.drop_left' h16]
        rw [zipWith_xor_cancel _ _ (by rw [List.length_take, ksBlock_length]; omega)]
        have hdrop : (d.drop 16).length ≤ n := by rw [List.length_drop]; omega
        rw [ih _ _ hdrop]
        exact List.take_append_drop 16 d

/-- GCTR applied twice with the same key and counter is the identity. -/
theorem gctr_involution (key : List Nat) (cb : Nat) (d : List Nat) :
    gctr key cb (gctr key cb d) = d := by
  unfold gctr
  rw [gctrF_length key d.length cb d le_rfl]
  exact gctrF_involution key d.length cb d le_rfl

/-- A GCM tag is always 16 bytes. -/
theorem gcmTagBytes_length (key iv ct : List Nat) : (gcmTagBytes key iv ct).length = 16 := by
  simp [gcmTagBytes, natToBeBytes16]

/-- Decrypting a ciphertext carrying its own correct tag strips the tag
and undoes the counter mode. -/
theorem gcmDecrypt_append_tag (key iv ct : List Nat) :
    gcmDecrypt key iv (ct ++ gcmTagBytes key iv ct) =
      some (gctr key (inc32 (beBytesToNat (iv ++ [0, 0, 0, 1]))) ct) := by
  have hfull : (ct ++ gcmTagBytes key iv ct).length = ct.length + 16 := by
    simp [gcmTagBytes_length]
  have hsplit : ct.length + 16 - 16 = ct.length := by omega
  unfold gcmDecrypt
  rw [if_neg (by omega)]
  simp only [hfull, hsplit, List.take_left' rfl, List.drop_left' rfl, if_pos rfl]
  simp

/-- Decrypting a ciphertext whose appended 16-byte tag is not the correct
tag fails. -/
theorem gcmDecrypt_append_wrong_tag (key iv ct tg : List Nat) (hlen : tg.length = 16)
    (hne : tg ≠ gcmTagBytes key iv ct) :
    gcmDecrypt key iv (ct ++ tg) = none := by
  have hfull : (ct ++ tg).length = ct.length + 16 := by simp [hlen]
  have hsplit : ct.length + 16 - 16 = ct.length := by omega
  unfold gcmDecrypt
  rw [if_neg (by omega)]
  simp only [hfull, hsplit, List.take_left' rfl, List.drop_left' rfl, if_neg hne]

/-- The parts `encrypt_file` returns: the bare ciphertext (same length as
the plaintext), the IV it was given, and the 16-byte tag. -/
theorem encrypt_file_parts (p key iv : List Nat) :
    (encrypt_file p key iv).1 = gctr key (inc32 (beBytesToNat (iv ++ [0, 0, 0, 1]))) p ∧
    (encrypt_file p key iv).2.1 = iv ∧
    (encrypt_file p key iv).2.2 =
      gcmTagBytes key iv (gctr key (inc32 (beBytesToNat (iv ++ [0, 0, 0, 1]))) p) := by
  have hctlen : (gctr key (inc32 (beBytesToNat (iv ++ [0, 0, 0, 1]))) p).length = p.length :=
    gctr_len key _ p
  have henc : gcmEncrypt key iv p =
      gctr key (inc32 (beBytesToNat (iv ++ [0, 0, 0, 1]))) p ++
        gcmTagBytes key iv (gctr key (inc32 (beBytesToNat (iv ++ [0, 0, 0, 1]))) p) := rfl
  have hfull : (gcmEncrypt key iv p).length = p.length + 16 := by
    rw [henc]; simp [hctlen, gcmTagBytes_length]
  refine ⟨?_, rfl, ?_⟩
  · show (gcmEncrypt key iv p).take ((gcmEncrypt key iv p).length - 16) = _
    rw [hfull, henc, show p.length + 16 - 16 = p.length from by omega,
      List.take_left' hctlen]
  · show (gcmEncrypt key iv p).drop ((gcmEncrypt key iv p).length - 16) = _
    rw [hfull, henc, show p.length + 16 - 16 = p.length from by omega,
      List.drop_left' hctlen]

/-! ## C3 — encrypt/decrypt round trip -/

/-- C3: for every plaintext, every 32-byte key and every 12-byte IV the
OS RNG can sample, if `encrypt_file(p, key)` returns
`(ciphertext, iv, tag)` then `decrypt_file(ciphertext, iv, tag, key)`
succeeds and returns exactly `p`. -/
theorem encrypt_file_decrypt_file_roundtrip (p key iv : List Nat)
    (hkey : key.length = 32) (hiv : iv.length = 12) :
    decrypt_file (encrypt_file p key iv).1 (encrypt_file p key iv).2.1
      (encrypt_file p key iv).2.2 key = .ok p := by
  obtain ⟨h1, h2, h3⟩ := encrypt_file_parts p key iv
  rw [h1, h2, h3]
  unfold decrypt_file
  rw [if_neg (by simp [hiv]), if_neg (by simp [gcmTagBytes_length])]
  rw [gcmDecrypt_append_tag, gctr_involution]

/-- Witness for C3: encrypting the five bytes `"hello"` under the source
test's key `[42; 32]` with a concrete IV and decrypting the result gives
back exactly those bytes. -/
theorem encrypt_file_decrypt_file_roundtrip_witness :
    (List.replicate 32 42 : List Nat).length = 32 ∧
    (List.range 12 : List Nat).length = 12 ∧
    decrypt_file (encrypt_file [104, 101, 108, 108, 111] (List.replicate 32 42) (List.range 12)).1
      (encrypt_file [104, 101, 108, 108, 111] (List.replicate 32 42) (List.range 12)).2.1
      (encrypt_file [104, 101, 108, 108, 111] (List.replicate 32 42) (List.range 12)).2.2
      (List.replicate 32 42) = .ok [104, 101, 108, 108, 111] :=
  ⟨by decide, by decide,
    encrypt_file_decrypt_file_roundtrip _ _ _ (by decide) (by decide)⟩

/-! ## C4 — AEAD integrity (partial results)

The tag half is universal: flipping any single bit of the tag makes
`decrypt_file` fail with the decryption-failed error, for every plaintext,
key and IV.  The ciphertext half holds exactly when the flip changes the
recomputed tag; whether that is the case for *every* AES-256 key is a
computational property of AES (it fails only for a key with
`E_K(0) = 0`, none of which is known), so it is stated conditionally
here and checked on the repository test's concrete key below. -/

/-- Flipping a bit of a byte actually changes the list. -/
theorem flipBit_ne (l : List Nat) (i b : Nat) (hi : i < l.length) : flipBit l i b ≠ l := by
  intro hcon
  have hgot := congrArg (fun t => t[i]?) hcon
  simp only [flipBit] at hgot
  rw [List.getElem?_set_self (by omega), List.getElem?_eq_getElem hi] at hgot
  have hval : l.getD i 0 ^^^ 1 <<< b = l.getD i 0 := Option.some.inj hgot |>.trans
    (List.getD_eq_getElem l 0 hi).symm |>.symm ▸ rfl
  have hval2 : l[i] ^^^ 1 <<< b = l[i] := by
    have hgd : l.getD i 0 = l[i] := List.getD_eq_getElem l 0 hi
    have := Option.some.inj hgot
    rw [hgd] at this
    exact this
  have hzero : 1 <<< b = 0 := by
    have : l[i] ^^^ 1 <<< b = l[i] ^^^ 0 := by simpa using hval2
    exact Nat.xor_right_inj.mp this
  have hpos : 0 < 1 <<< b := by
    rw [Nat.one_shiftLeft]
    exact Nat.pos_pow_of_pos b (by omega)
  omega

/-- Flipping any single bit of the tag makes `decrypt_file` fail with
`DecryptionFailed`, for every plaintext, key and IV. -/
theorem decrypt_file_rejects_tag_bitflip (p key iv : List Nat) (i b : Nat)
    (hiv : iv.length = 12) (hi : i < 16) (hb : b < 8) :
    decrypt_file (encrypt_file p key iv).1 (encrypt_file p key iv).2.1
      (flipBit (encrypt_file p key iv).2.2 i b) key = .error .decryptionFailed := by
  obtain ⟨h1, h2, h3⟩ := encrypt_file_parts p key iv
  rw [h1, h2, h3]
  have htglen : (gcmTagBytes key iv (gctr key (inc32 (beBytesToNat (iv ++ [0, 0, 0, 1]))) p)).length
      = 16 := gcmTagBytes_length key iv _
  have hfliplen :
      (flipBit (gcmTagBytes key iv (gctr key (inc32 (beBytesToNat (iv ++ [0, 0, 0, 1]))) p)) i b).length
        = 16 := by
    rw [flipBit, List.length_set]; exact htglen
  have hne := flipBit_ne
    (gcmTagBytes key iv (gctr key (inc32 (beBytesToNat (iv ++ [0, 0, 0, 1]))) p)) i b (by omega)
  unfold decrypt_file
  rw [if_neg (by simp [hiv]), if_neg (by simp [hfliplen])]
  rw [gcmDecrypt_append_wrong_tag key iv _ _ hfliplen hne]

/-- Flipping a ciphertext bit makes `decrypt_file` fail with
`DecryptionFailed` whenever the flip changes the recomputed GHASH tag
(which is the case unless `E_key(0)` behaves degenerately). -/
theorem decrypt_file_rejects_ct_bitflip_of_tag_change (p key iv : List Nat) (i b : Nat)
    (hiv : iv.length = 12)
    (hch : gcmTagBytes key iv (flipBit (encrypt_file p key iv).1 i b) ≠
      gcmTagBytes key iv (encrypt_file p key iv).1) :
    decrypt_file (flipBit (encrypt_file p key iv).1 i b) (encrypt_file p key iv).2.1
      (encrypt_file p key iv).2.2 key = .error .decryptionFailed := by
  obtain ⟨h1, h2, h3⟩ := encrypt_file_parts p key iv
  rw [h1] at hch
  rw [h1, h2, h3]
  unfold decrypt_file
  rw [if_neg (by simp [hiv]), if_neg (by simp [gcmTagBytes_length])]
  rw [gcmDecrypt_append_wrong_tag _ _ _ _ (gcmTagBytes_length key iv _) (by
    intro hcon
    exact hch (by rw [hcon]))]

/-! ## How each operation changes the refresh-token table -/

/-- `RefreshEvolves` is reflexive. -/
theorem refreshEvolves_refl (db : Db) : RefreshEvolves db db :=
  ⟨le_rfl, fun r' hr' => .inl ⟨r', hr', rfl, id⟩⟩

/-- A state that keeps the rows and does not lower the counter evolves. -/
theorem refreshEvolves_same (db db' : Db) (h1 : db'.refreshTokens = db.refreshTokens)
    (h3 : db.nextId ≤ db'.nextId) : RefreshEvolves db db' :=
  ⟨h3, fun r' hr' => .inl ⟨r', h1 ▸ hr', rfl, id⟩⟩

/-- A state that appends only counter-fresh rows evolves. -/
theorem refreshEvolves_append (db db' : Db) (rows : List RefreshTokenRow)
    (h1 : db'.refreshTokens = db.refreshTokens ++ rows)
    (h2 : ∀ r ∈ rows, db.nextId ≤ r.id)
    (h3 : db.nextId ≤ db'.nextId) : RefreshEvolves db db' := by
  refine ⟨h3, fun r' hr' => ?_⟩
  rw [h1, List.mem_append] at hr'
  rcases hr' with hold | hnew
  · exact .inl ⟨r', hold, rfl, id⟩
  · exact .inr (h2 r' hnew)

/-- A state whose rows are the old ones — possibly with some marked
revoked — followed by rows with counter-fresh ids evolves. -/
theorem refreshEvolves_revoke_append (db db' : Db) (q : RefreshTokenRow → Prop)
    [DecidablePred q] (rows : List RefreshTokenRow)
    (h1 : db'.refreshTokens =
      db.refreshTokens.map (fun r => if q r then { r with revoked := true } else r) ++ rows)
    (h2 : ∀ r ∈ rows, db.nextId ≤ r.id)
    (h3 : db.nextId ≤ db'.nextId) : RefreshEvolves db db' := by
  refine ⟨h3, fun r' hr' => ?_⟩
  rw [h1, List.mem_append] at hr'
  rcases hr' with hmap | hnew
  · rcases List.mem_map.mp hmap with ⟨r, hr, hfr⟩
    by_cases hq : q r
    · rw [if_pos hq] at hfr
      exact .inl ⟨r, hr, by rw [← hfr], fun _ => by rw [← hfr]⟩
    · rw [if_neg hq] at hfr
      exact .inl ⟨r, hr, by rw [← hfr], fun hrev => by rw [← hfr]; exact hrev⟩
  · exact .inr (h2 r' hnew)

/-- Frame: `revoke_device_token` touches only the trusted-device rows. -/
theorem revoke_device_token_frame (db : Db) (c : CookieVal) :
    (revoke_device_token db c).refreshTokens = db.refreshTokens ∧
    (revoke_device_token db c).nextId = db.nextId ∧
    (revoke_device_token db c).twoFactorCodes = db.twoFactorCodes ∧
    (revoke_device_token db c).users = db.users := by
  unfold revoke_device_token
  rcases c with ⟨ip, s⟩ | s
  · rcases hp : ip.parse with _ | id <;> simp [hp]
  · simp

/-- A state that only marks some rows revoked evolves. -/
theorem refreshEvolves_revoke (db db' : Db) (q : RefreshTokenRow → Prop)
    [DecidablePred q]
    (h1 : db'.refreshTokens =
      db.refreshTokens.map (fun r => if q r then { r with revoked := true } else r))
    (h3 : db.nextId ≤ db'.nextId) : RefreshEvolves db db' :=
  refreshEvolves_revoke_append db db' q [] (by rw [h1, List.append_nil]) (by simp) h3

/-- `RefreshEvolves` is transitive. -/
theorem refreshEvolves_trans {a b c : Db} (hab : RefreshEvolves a b)
    (hbc : RefreshEvolves b c) : RefreshEvolves a c := by
  refine ⟨le_trans hab.1 hbc.1, fun r'' hr'' => ?_⟩
  rcases hbc.2 r'' hr'' with ⟨r', hr', hid, hrev⟩ | hfresh
  · rcases hab.2 r' hr' with ⟨r, hr, hid2, hrev2⟩ | hfresh2
    · exact .inl ⟨r, hr, hid.trans hid2, fun h => hrev (hrev2 h)⟩
    · exact .inr (by omega)
  · exact .inr (le_trans hab.1 hfresh)

/-- `issueSession` appends one counter-fresh refresh row. -/
theorem issueSession_refreshEvolves (db : Db) (user : UserRow)
    (t js rs : String) (a rd now : Int) (ds : String) :
    RefreshEvolves db (issueSession db user t js rs a rd now ds).2 := by
  refine refreshEvolves_append db _
    [⟨db.nextId, user.id, bcryptHash (generate_refresh_token user.id db.nextId rs rd now) 8,
      now + rd * 86400, false⟩] rfl ?_ ?_
  · intro r hr
    rw [List.mem_singleton] at hr
    rw [hr]
  · exact Nat.le_add_right _ 2

/-- The 2FA branch of `login` never touches the refresh-token table. -/
theorem loginRequire2fa_refreshEvolves (db : Db) (user : UserRow) (t : String)
    (ec eo : Bool) (now : Int) (cv : Nat) :
    RefreshEvolves db (loginRequire2fa db user t ec eo now cv).1 := by
  unfold loginRequire2fa
  split
  · exact refreshEvolves_refl db
  split
  · exact refreshEvolves_same db _ rfl (Nat.le_succ _)
  · exact refreshEvolves_same db _ rfl (Nat.le_succ _)

/-- `login` only appends counter-fresh refresh rows. -/
theorem login_refreshEvolves (db : Db) (ec eo : Bool) (t e p : String)
    (dt : Option CookieVal) (js rs : String) (a rd now : Int) (cv : Nat) (ds : String) :
    RefreshEvolves db (login db ec eo t e p dt js rs a rd now cv ds).1 := by
  unfold login
  split
  · exact refreshEvolves_refl db
  split
  · exact refreshEvolves_refl db
  split
  · exact refreshEvolves_refl db
  split
  · split
    · exact issueSession_refreshEvolves db _ t js rs a rd now ds
    · exact loginRequire2fa_refreshEvolves db _ t ec eo now cv
  · exact loginRequire2fa_refreshEvolves db _ t ec eo now cv

/-- `verify_2fa` only appends counter-fresh refresh rows. -/
theorem verify_2fa_refreshEvolves (db : Db) (t e c js rs : String) (a rd now : Int)
    (ds : String) :
    RefreshEvolves db (verify_2fa db t e c js rs a rd now ds).1 := by
  unfold verify_2fa
  split
  · exact refreshEvolves_refl db
  split
  · exact refreshEvolves_refl db
  split
  · exact refreshEvolves_refl db
  split
  · exact refreshEvolves_same db _ rfl le_rfl
  · refine refreshEvolves_trans ?_ (issueSession_refreshEvolves _ _ t js rs a rd now ds)
    exact refreshEvolves_same db _ rfl le_rfl

/-- The rotation tail of `refresh` only appends a counter-fresh row. -/
theorem refreshRotate_refreshEvolves (db1 : Db) (t : String) (userId : Nat)
    (js rs : String) (a rd now : Int) :
    RefreshEvolves db1 (refreshRotate db1 t userId js rs a rd now).1 := by
  unfold refreshRotate
  split
  · exact refreshEvolves_refl db1
  · refine refreshEvolves_append db1 _
      [⟨db1.nextId, _, _, now + rd * 86400, false⟩] rfl ?_ ?_
    · intro r hr
      rw [List.mem_singleton] at hr
      rw [hr]
    · exact Nat.le_succ _

/-- `refresh` only revokes the presented row and appends a counter-fresh one. -/
theorem refresh_refreshEvolves (db : Db) (t : String) (tok : Jwt RefreshClaims)
    (js rs : String) (a rd now : Int) :
    RefreshEvolves db (refresh db t tok js rs a rd now).1 := by
  unfold refresh
  split
  · exact refreshEvolves_refl db
  split
  · exact refreshEvolves_refl db
  split
  · exact refreshEvolves_refl db
  split
  · exact refreshEvolves_refl db
  split
  · exact refreshEvolves_refl db
  split
  · exact refreshEvolves_refl db
  · refine refreshEvolves_trans ?_ (refreshRotate_refreshEvolves _ t _ js rs a rd now)
    exact refreshEvolves_revoke db _ _ rfl le_rfl

/-- Frame: `logoutDevice` touches only the trusted-device rows. -/
theorem logoutDevice_frame (db : Db) (dt : Option CookieVal) :
    (logoutDevice db dt).refreshTokens = db.refreshTokens ∧
    (logoutDevice db dt).nextId = db.nextId ∧
    (logoutDevice db dt).twoFactorCodes = db.twoFactorCodes ∧
    (logoutDevice db dt).users = db.users := by
  rcases dt with _ | cookieVal
  · exact ⟨rfl, rfl, rfl, rfl⟩
  · exact revoke_device_token_frame db cookieVal

/-- `logout` only marks rows revoked. -/
theorem logout_refreshEvolves (db : Db) (t : String) (tok : Jwt RefreshClaims)
    (rs : String) (dt : Option CookieVal) (now : Int) :
    RefreshEvolves db (logout db t tok rs dt now).1 := by
  unfold logout
  split
  · exact refreshEvolves_same db _ (logoutDevice_frame db dt).1
      (le_of_eq (logoutDevice_frame db dt).2.1.symm)
  split
  · exact refreshEvolves_refl db
  · rename_i jti hjti
    refine refreshEvolves_revoke db _ (fun r => r.id = jti) ?_ ?_
    · rw [(logoutDevice_frame _ dt).1]
    · rw [(logoutDevice_frame _ dt).2.1]

/-- `change_password` only marks rows revoked. -/
theorem change_password_refreshEvolves (db : Db) (t : String) (uid : Nat)
    (cp np : String) (now : Int) :
    RefreshEvolves db (change_password db t uid cp np now).1 := by
  unfold change_password
  split
  · exact refreshEvolves_refl db
  · split
    · exact refreshEvolves_refl db
    · exact refreshEvolves_revoke db _ (fun r => r.userId = uid) rfl le_rfl

/-- Every modelled operation evolves the refresh-token table. -/
theorem step_refreshEvolves {db db' : Db} (h : Step db db') : RefreshEvolves db db' := by
  cases h with
  | login ec eo t e p d js rs at_ rd now cv ds =>
    exact login_refreshEvolves db ec eo t e p d js rs at_ rd now cv ds
  | verify_2fa t e c js rs at_ rd now ds =>
    exact verify_2fa_refreshEvolves db t e c js rs at_ rd now ds
  | refresh t tok js rs at_ rd now =>
    exact refresh_refreshEvolves db t tok js rs at_ rd now
  | logout t tok rs d now =>
    exact logout_refreshEvolves db t tok rs d now
  | change_password t uid cp np now =>
    exact change_password_refreshEvolves db t uid cp np now

/-- Replay of a `jti` survives one operation. -/
theorem replayed_mono {db db' : Db} (h : RefreshEvolves db db') {jti : Nat}
    (hr : Replayed db jti) : Replayed db' jti := by
  obtain ⟨hlt, hall⟩ := hr
  obtain ⟨hle, hrows⟩ := h
  refine ⟨lt_of_lt_of_le hlt hle, fun r' hr' hid => ?_⟩
  rcases hrows r' hr' with ⟨r, hrmem, hideq, hrev⟩ | hfresh
  · exact hrev (hall r hrmem (by omega))
  · exact absurd hfresh (by omega)

/-- Replay of a `jti` survives any sequence of operations. -/
theorem stepStar_replayed {db db' : Db} (h : StepStar db db') {jti : Nat}
    (hr : Replayed db jti) : Replayed db' jti := by
  induction h with
  | refl => exact hr
  | tail _ hstep ih => exact replayed_mono (step_refreshEvolves hstep) ih

/-- Decoding succeeds only on a signed token, whose claims it returns. -/
theorem tokJti_of_decode {tok : Jwt RefreshClaims} {rs : String} {now : Int}
    {rc : RefreshClaims} (h : decodeRefresh tok rs now = some rc) :
    tokJti tok = rc.jti.parse := by
  cases tok with
  | signed c s =>
    simp only [decodeRefresh] at h
    split at h
    · rw [Option.some.inj h]
      rfl
    · exact absurd h (by simp)
  | garbage s => exact absurd h (by simp [decodeRefresh])

/-- When every stored row bearing the token's `jti` is revoked (or there
is no such row), `refresh` fails — whatever the current time, secrets or
TTLs are. -/
theorem refresh_fails_of_revoked (db : Db) (t : String) (tok : Jwt RefreshClaims)
    (js rs : String) (a rd now : Int) (jti : Nat)
    (hjti : tokJti tok = some jti)
    (hrev : ∀ r ∈ db.refreshTokens, r.id = jti → r.revoked) :
    ∃ e, (refresh db t tok js rs a rd now).2 = .error e := by
  unfold refresh
  rcases htok : decodeRefresh tok rs now with _ | rc
  · exact ⟨.tokenInvalid, rfl⟩
  · have hparse : rc.jti.parse = some jti := by
      rw [← tokJti_of_decode htok]
      exact hjti
    have hfind : db.refreshTokens.find? (fun r => r.id = jti && !r.revoked) = none := by
      rw [List.find?_eq_none]
      intro r hrm hcon
      rcases (Bool.and_eq_true _ _).mp hcon with ⟨h1, h2⟩
      rw [decide_eq_true_eq] at h1
      rw [hrev r hrm h1] at h2
      simp at h2
    rcases hsubp : rc.sub.parse with _ | uid
    · exact ⟨.subParseFailed, by simp only [hparse, hsubp]⟩
    · exact ⟨.tokenRevokedOrUnknown, by simp only [hparse, hsubp, hfind]⟩

/-- A successful `refresh` leaves the presented token's `jti` replayed:
the row is revoked and the id is stale. -/
theorem refresh_ok_replayed (db : Db) (t : String) (tok : Jwt RefreshClaims)
    (js rs : String) (a rd now : Int)
    (hgood : ∀ r ∈ db.refreshTokens, r.id < db.nextId)
    (hok : isOkE (refresh db t tok js rs a rd now).2 = true) :
    ∃ jti, tokJti tok = some jti ∧ Replayed (refresh db t tok js rs a rd now).1 jti := by
  unfold refresh at hok ⊢
  rcases htok : decodeRefresh tok rs now with _ | rc
  · try rw [htok] at hok
    simp [isOkE] at hok
  try rw [htok] at hok
  try rw [htok]
  dsimp only at hok ⊢
  rcases hparse : rc.jti.parse with _ | jti
  · try rw [hparse] at hok
    simp [isOkE] at hok
  try rw [hparse] at hok
  try rw [hparse]
  dsimp only at hok ⊢
  rcases hsub : rc.sub.parse with _ | uid
  · try rw [hsub] at hok
    simp [isOkE] at hok
  try rw [hsub] at hok
  try rw [hsub]
  dsimp only at hok ⊢
  rcases hfind : db.refreshTokens.find? (fun r => r.id = jti && !r.revoked) with _ | stored
  · try rw [hfind] at hok
    simp [isOkE] at hok
  try rw [hfind] at hok
  try rw [hfind]
  dsimp only at hok ⊢
  by_cases hexp : stored.expiresAt < now
  · rw [if_pos hexp] at hok
    simp [isOkE] at hok
  rw [if_neg hexp] at hok ⊢
  by_cases hhash : (!bcryptVerify tok stored.tokenHash) = true
  · rw [if_pos hhash] at hok
    simp [isOkE] at hok
  rw [if_neg hhash] at hok ⊢
  -- success: the revocation map has run
  have hstoredmem : stored ∈ db.refreshTokens := List.mem_of_find?_eq_some hfind
  have hstoredid : stored.id = jti := by
    have := List.find?_some hfind
    rcases (Bool.and_eq_true _ _).mp this with ⟨h1, _⟩
    exact decide_eq_true_eq.mp h1
  have hlt : jti < db.nextId := hstoredid ▸ hgood stored hstoredmem
  have hrepl1 : Replayed
      { db with refreshTokens := db.refreshTokens.map (fun r =>
          if r.id = jti then { r with revoked := true } else r) } jti := by
    refine ⟨hlt, fun r' hr' hid => ?_⟩
    rcases List.mem_map.mp hr' with ⟨r, hrm, hfr⟩
    by_cases hq : r.id = jti
    · rw [← hfr, if_pos hq]
    · rw [← hfr, if_neg hq] at hid ⊢
      exact absurd hid hq
  exact ⟨jti, by rw [tokJti_of_decode htok, hparse],
    replayed_mono (refreshRotate_refreshEvolves _ t uid js rs a rd now) hrepl1⟩

/-! ## C1 — refresh replay rejection -/

/-- C1: once `refresh` has succeeded for a token (its stored row is
marked revoked), every later `refresh` with the same token fails, after
any sequence of modelled operations, for any later time — in particular
even inside the token's JWT expiry window; and, directly, a refresh token
whose stored row is missing or revoked is always rejected. -/
theorem refresh_replay_rejection :
    (∀ (db : Db) (t : String) (tok : Jwt RefreshClaims) (js rs : String) (a rd now : Int)
      (db2 : Db) (t2 js2 rs2 : String) (a2 rd2 now2 : Int),
      GoodDb db →
      isOkE (refresh db t tok js rs a rd now).2 = true →
      StepStar (refresh db t tok js rs a rd now).1 db2 →
      ∃ e, (refresh db2 t2 tok js2 rs2 a2 rd2 now2).2 = .error e)
    ∧ (∀ (db : Db) (t : String) (tok : Jwt RefreshClaims) (js rs : String)
      (a rd now : Int) (jti : Nat),
      tokJti tok = some jti →
      (∀ r ∈ db.refreshTokens, r.id = jti → r.revoked) →
      ∃ e, (refresh db t tok js rs a rd now).2 = .error e) := by
  constructor
  · intro db t tok js rs a rd now db2 t2 js2 rs2 a2 rd2 now2 hgood hok hstar
    obtain ⟨jti, hjti, hrepl⟩ := refresh_ok_replayed db t tok js rs a rd now hgood.1 hok
    have hrepl2 := stepStar_replayed hstar hrepl
    exact refresh_fails_of_revoked db2 t2 tok js2 rs2 a2 rd2 now2 jti hjti hrepl2.2
  · intro db t tok js rs a rd now jti hjti hrev
    exact refresh_fails_of_revoked db t tok js rs a rd now jti hjti hrev

/-- Witness for C1: in the concrete state `exDbTok` the stored token
refreshes once, and replaying it immediately afterwards fails. -/
theorem refresh_replay_rejection_witness :
    GoodDb exDbTok ∧
    isOkE (refresh exDbTok "acme" exRefreshTok "js" "rsec" 900 30 0).2 = true ∧
    ∃ e, (refresh (refresh exDbTok "acme" exRefreshTok "js" "rsec" 900 30 0).1
      "acme" exRefreshTok "js" "rsec" 900 30 0).2 = .error e :=
  ⟨by decide, by decide,
    refresh_replay_rejection.1 exDbTok "acme" exRefreshTok "js" "rsec" 900 30 0
      _ "acme" "js" "rsec" 900 30 0 (by decide) (by decide) Relation.ReflTransGen.refl⟩

/-! ## C2 — the 2FA attempts cap -/

/-- C2: with an active code already at 3 (or more) attempts, `verify_2fa`
fails with the too-many-attempts error before any comparison — the state
is returned unchanged (the code is not marked used, the counter is not
touched) and the result does not depend on the submitted code, so a 4th
attempt with the correct code still fails; and on a mismatch below the
cap, the attempts counter has been incremented in the returned state
before the invalid-code error. -/
theorem verify_2fa_attempt_limit :
    (∀ (db : Db) (t e code js rs : String) (a rd now : Int) (ds : String)
      (user : UserRow) (row : TwoFactorRow),
      findUserByEmail db e = some user →
      latestActiveCode db.twoFactorCodes user.id now = some row →
      3 ≤ row.attempts →
      verify_2fa db t e code js rs a rd now ds = (db, .error .tooManyAttempts))
    ∧ (∀ (db : Db) (t e code js rs : String) (a rd now : Int) (ds : String)
      (user : UserRow) (row : TwoFactorRow),
      findUserByEmail db e = some user →
      latestActiveCode db.twoFactorCodes user.id now = some row →
      row.attempts < 3 →
      code ≠ row.code →
      verify_2fa db t e code js rs a rd now ds =
        ({ db with twoFactorCodes := db.twoFactorCodes.map (fun c =>
            if c.id = row.id then { c with attempts := c.attempts + 1 } else c) },
          .error .invalidCode)) := by
  constructor
  · intro db t e code js rs a rd now ds user row hu hr hatt
    unfold verify_2fa
    simp only [hu, hr]
    rw [if_pos hatt]
  · intro db t e code js rs a rd now ds user row hu hr hlt hne
    unfold verify_2fa
    simp only [hu, hr]
    rw [if_neg (not_le.mpr hlt), if_pos hne]

/-- Witness for C2: in `exDbCode3` — the state after three failed
attempts on the code `"123456"` — the stored attempts counter is 3, and a
4th attempt with the correct code fails with the too-many-attempts error,
leaving the state unchanged. -/
theorem verify_2fa_attempt_limit_witness :
    findUserByEmail exDbCode3 "amelie@acme.test" = some exUser ∧
    latestActiveCode exDbCode3.twoFactorCodes exUser.id 0 =
      some ⟨7, 1, "123456", 900, false, 3, 0⟩ ∧
    verify_2fa exDbCode3 "acme" "amelie@acme.test" "123456" "js" "rs" 900 30 0 "d4"
      = (exDbCode3, .error .tooManyAttempts) :=
  ⟨by decide, by decide,
    verify_2fa_attempt_limit.1 exDbCode3 "acme" "amelie@acme.test" "123456" "js" "rs"
      900 30 0 "d4" exUser ⟨7, 1, "123456", 900, false, 3, 0⟩
      (by decide) (by decide) (by decide)⟩

/-! ## C5 — exactly one active 2FA code -/

/-- After invalidation, the user has no unused code left. -/
theorem invalidateCodes_unused_zero (codes : List TwoFactorRow) (uid : Nat) :
    (invalidateCodes codes uid).countP (fun c => c.userId = uid && !c.used) = 0 := by
  rw [List.countP_eq_zero]
  intro c' hc'
  rcases List.mem_map.mp hc' with ⟨c, hc, hfc⟩
  by_cases hq : (c.userId = uid && !c.used) = true
  · rw [if_pos hq] at hfc
    rw [← hfc]
    simp
  · rw [if_neg hq] at hfc
    rw [← hfc]
    exact hq

/-- Invalidating one user's codes does not change another user's count. -/
theorem invalidateCodes_countP_other (codes : List TwoFactorRow) (uid target : Nat)
    (hne : uid ≠ target) :
    (invalidateCodes codes target).countP (fun c => c.userId = uid && !c.used) =
      codes.countP (fun c => c.userId = uid && !c.used) := by
  unfold invalidateCodes
  rw [List.countP_map]
  refine List.countP_congr (fun c hc => ?_)
  by_cases hq : c.userId = target ∧ c.used = false
  · simp [hq.1, hq.2, Ne.symm hne]
  · simp [hq]

/-- The state `loginRequire2fa` commits when it reports
`TwoFactorRequired`. -/
theorem loginRequire2fa_ok_state (db : Db) (user : UserRow) (t : String) (ec eo : Bool)
    (now : Int) (cv : Nat) (g : String)
    (h : (loginRequire2fa db user t ec eo now cv).2 = .ok (.twoFactorRequired g)) :
    (loginRequire2fa db user t ec eo now cv).1 =
      { db with
        twoFactorCodes := invalidateCodes db.twoFactorCodes user.id ++
          [⟨db.nextId, user.id, toString cv, now + 15 * 60, false, 0, now⟩],
        nextId := db.nextId + 1 } := by
  unfold loginRequire2fa at h ⊢
  cases ec with
  | false => exact absurd h (by simp)
  | true =>
    cases eo with
    | true => rfl
    | false => exact absurd h (by simp)

/-- A `TwoFactorRequired` outcome of `login` pins down the new state. -/
theorem login_twoFactorRequired_state (db : Db) (ec eo : Bool) (t e p : String)
    (dt : Option CookieVal) (js rs : String) (a rd now : Int) (cv : Nat) (ds : String)
    (user : UserRow) (g : String)
    (hu : findUserByEmail db e = some user)
    (h : (login db ec eo t e p dt js rs a rd now cv ds).2 = .ok (.twoFactorRequired g)) :
    (login db ec eo t e p dt js rs a rd now cv ds).1 =
      { db with
        twoFactorCodes := invalidateCodes db.twoFactorCodes user.id ++
          [⟨db.nextId, user.id, toString cv, now + 15 * 60, false, 0, now⟩],
        nextId := db.nextId + 1 } := by
  unfold login at h ⊢
  simp only [hu] at h ⊢
  split at h
  · exact absurd h (by simp)
  · rename_i hse
    rw [if_neg hse]
    split at h
    · exact absurd h (by simp)
    · rename_i hbc
      rw [if_neg hbc]
      rcases dt with _ | cookieVal
      · exact loginRequire2fa_ok_state db user t ec eo now cv g h
      · dsimp only at h ⊢
        split at h
        · rename_i hv
          exact absurd h (by simp)
        · rename_i hv
          rw [if_neg hv]
          exact loginRequire2fa_ok_state db user t ec eo now cv g h

/-- `issueSession` does not touch the 2FA codes. -/
theorem issueSession_codes (db : Db) (user : UserRow) (t js rs : String)
    (a rd now : Int) (ds : String) :
    (issueSession db user t js rs a rd now ds).2.twoFactorCodes = db.twoFactorCodes := rfl

/-- The rotation tail of `refresh` does not touch the 2FA codes. -/
theorem refreshRotate_codes (db1 : Db) (t : String) (uid : Nat) (js rs : String)
    (a rd now : Int) :
    (refreshRotate db1 t uid js rs a rd now).1.twoFactorCodes = db1.twoFactorCodes := by
  unfold refreshRotate
  split
  · rfl
  · rfl

/-- `refresh` does not touch the 2FA codes. -/
theorem refresh_codes (db : Db) (t : String) (tok : Jwt RefreshClaims) (js rs : String)
    (a rd now : Int) :
    (refresh db t tok js rs a rd now).1.twoFactorCodes = db.twoFactorCodes := by
  unfold refresh
  split
  · rfl
  split
  · rfl
  split
  · rfl
  split
  · rfl
  split
  · rfl
  split
  · rfl
  · rw [refreshRotate_codes]

/-- `logout` does not touch the 2FA codes. -/
theorem logout_codes (db : Db) (t : String) (tok : Jwt RefreshClaims) (rs : String)
    (dt : Option CookieVal) (now : Int) :
    (logout db t tok rs dt now).1.twoFactorCodes = db.twoFactorCodes := by
  unfold logout
  split
  · exact (logoutDevice_frame db dt).2.2.1
  split
  · rfl
  · exact (logoutDevice_frame _ dt).2.2.1

/-- `change_password` does not touch the 2FA codes. -/
theorem change_password_codes (db : Db) (t : String) (uid : Nat) (cp np : String)
    (now : Int) :
    (change_password db t uid cp np now).1.twoFactorCodes = db.twoFactorCodes := by
  unfold change_password
  split
  · rfl
  · split
    · rfl
    · rfl

/-- Equal code tables give equal unused counts. -/
theorem unusedCodeCount_congr {db db' : Db} (h : db'.twoFactorCodes = db.twoFactorCodes)
    (uid : Nat) : unusedCodeCount db' uid = unusedCodeCount db uid := by
  unfold unusedCodeCount
  rw [h]

/-- Invalidate-then-insert leaves at most one unused code per user. -/
theorem unused_after_invalidate_insert (codes : List TwoFactorRow) (uid target : Nat)
    (row : TwoFactorRow) (hrow : row.userId = target)
    (hb : codes.countP (fun c => c.userId = uid && !c.used) ≤ 1) :
    (invalidateCodes codes target ++ [row]).countP
      (fun c => c.userId = uid && !c.used) ≤ 1 := by
  rw [List.countP_append]
  by_cases h : uid = target
  · subst h
    rw [invalidateCodes_unused_zero]
    have := List.countP_le_length (l := [row]) (p := fun c => c.userId = uid && !c.used)
    simp at this ⊢
    omega
  · rw [invalidateCodes_countP_other codes uid target h]
    have hz : ([row].countP (fun c => c.userId = uid && !c.used)) = 0 := by
      rw [List.countP_eq_zero]
      intro c hc
      rw [List.mem_singleton] at hc
      subst hc
      intro hcon
      rcases (Bool.and_eq_true _ _).mp hcon with ⟨h1, _⟩
      rw [decide_eq_true_eq, hrow] at h1
      exact h (h1.symm)
    omega

/-- The 2FA branch of `login` keeps at most one unused code per user. -/
theorem loginRequire2fa_unusedBound (db : Db) (user : UserRow) (t : String)
    (ec eo : Bool) (now : Int) (cv : Nat)
    (hb : ∀ uid, unusedCodeCount db uid ≤ 1) :
    ∀ uid, unusedCodeCount (loginRequire2fa db user t ec eo now cv).1 uid ≤ 1 := by
  intro uid
  unfold loginRequire2fa
  cases ec with
  | false => exact hb uid
  | true =>
    cases eo with
    | true =>
      exact unused_after_invalidate_insert db.twoFactorCodes uid user.id _ rfl (hb uid)
    | false =>
      exact unused_after_invalidate_insert db.twoFactorCodes uid user.id _ rfl (hb uid)

/-- `login` keeps at most one unused code per user. -/
theorem login_unusedBound (db : Db) (ec eo : Bool) (t e p : String)
    (dt : Option CookieVal) (js rs : String) (a rd now : Int) (cv : Nat) (ds : String)
    (hb : ∀ uid, unusedCodeCount db uid ≤ 1) :
    ∀ uid, unusedCodeCount (login db ec eo t e p dt js rs a rd now cv ds).1 uid ≤ 1 := by
  intro uid
  unfold login
  split
  · exact hb uid
  split
  · exact hb uid
  split
  · exact hb uid
  split
  · split
    · rw [unusedCodeCount_congr (issueSession_codes db _ t js rs a rd now ds) uid]
      exact hb uid
    · exact loginRequire2fa_unusedBound db _ t ec eo now cv hb uid
  · exact loginRequire2fa_unusedBound db _ t ec eo now cv hb uid

/-- Marking used and bumping attempts never increases the unused count. -/
theorem verify_marking_count_le (codes : List TwoFactorRow) (rid uid : Nat) :
    (((codes.map (fun c => if c.id = rid then { c with attempts := c.attempts + 1 } else c)).map
        (fun c => if c.id = rid then { c with used := true } else c)).countP
      (fun c => c.userId = uid && !c.used)) ≤
      codes.countP (fun c => c.userId = uid && !c.used) := by
  rw [List.countP_map, List.countP_map]
  refine List.countP_mono_left (fun c hc => ?_)
  by_cases h1 : c.id = rid
  · simp [Function.comp, h1]
  · simp [Function.comp, h1]

/-- Bumping attempts alone does not change the unused count. -/
theorem verify_increment_count_eq (codes : List TwoFactorRow) (rid uid : Nat) :
    ((codes.map (fun c => if c.id = rid then { c with attempts := c.attempts + 1 } else c)).countP
      (fun c => c.userId = uid && !c.used)) =
      codes.countP (fun c => c.userId = uid && !c.used) := by
  rw [List.countP_map]
  refine List.countP_congr (fun c hc => ?_)
  by_cases h1 : c.id = rid
  · simp [Function.comp, h1]
  · simp [Function.comp, h1]

/-- `verify_2fa` keeps at most one unused code per user. -/
theorem verify_2fa_unusedBound (db : Db) (t e c2 js rs : String) (a rd now : Int)
    (ds : String)
    (hb : ∀ uid, unusedCodeCount db uid ≤ 1) :
    ∀ uid, unusedCodeCount (verify_2fa db t e c2 js rs a rd now ds).1 uid ≤ 1 := by
  intro uid
  unfold verify_2fa
  split
  · exact hb uid
  split
  · exact hb uid
  split
  · exact hb uid
  split
  · unfold unusedCodeCount
    rw [verify_increment_count_eq]
    exact hb uid
  · unfold unusedCodeCount
    rw [issueSession_codes]
    calc _ ≤ db.twoFactorCodes.countP (fun c => c.userId = uid && !c.used) :=
        verify_marking_count_le db.twoFactorCodes _ uid
      _ ≤ 1 := hb uid

/-- Every modelled operation keeps at most one unused code per user. -/
theorem step_unusedBound {db db' : Db} (h : Step db db')
    (hb : ∀ uid, unusedCodeCount db uid ≤ 1) :
    ∀ uid, unusedCodeCount db' uid ≤ 1 := by
  cases h with
  | login ec eo t e p d js rs at_ rd now cv ds =>
    exact login_unusedBound db ec eo t e p d js rs at_ rd now cv ds hb
  | verify_2fa t e c js rs at_ rd now ds =>
    exact verify_2fa_unusedBound db t e c js rs at_ rd now ds hb
  | refresh t tok js rs at_ rd now =>
    intro uid
    rw [unusedCodeCount_congr (refresh_codes db t tok js rs at_ rd now) uid]
    exact hb uid
  | logout t tok rs d now =>
    intro uid
    rw [unusedCodeCount_congr (logout_codes db t tok rs d now) uid]
    exact hb uid
  | change_password t uid2 cp np now =>
    intro uid
    rw [unusedCodeCount_congr (change_password_codes db t uid2 cp np now) uid]
    exact hb uid

/-- On its success path `change_password` maps the refresh-token table,
revoking exactly the rows of the targeted user. -/
theorem change_password_ok_tokens (db : Db) (t : String) (uid : Nat) (cp np : String)
    (now : Int) :
    isOkE (change_password db t uid cp np now).2 = true →
    (change_password db t uid cp np now).1.refreshTokens =
      db.refreshTokens.map
        (fun r => if r.userId = uid then { r with revoked := true } else r) := by
  unfold change_password
  split
  · intro hok; simp [isOkE] at hok
  · split
    · intro hok; simp [isOkE] at hok
    · intro _; rfl

/-- C5: when `login` (with no valid device cookie) answers
`TwoFactorRequired`, the user has exactly one active (unused, unexpired)
code afterwards, and every unused code of the user in the new state *is*
the freshly inserted one — so a second login invalidates the first code;
moreover at-most-one-unused-code-per-user is preserved by every sequence
of operations, and active codes are a subset of unused ones. -/
theorem login_single_active_code :
    (∀ (db : Db) (ec eo : Bool) (t e p : String) (dt : Option CookieVal) (js rs : String)
      (a rd now : Int) (cv : Nat) (ds : String) (user : UserRow) (g : String),
      findUserByEmail db e = some user →
      (login db ec eo t e p dt js rs a rd now cv ds).2 = .ok (.twoFactorRequired g) →
      activeCodeCount (login db ec eo t e p dt js rs a rd now cv ds).1 user.id now = 1 ∧
      ∀ c ∈ (login db ec eo t e p dt js rs a rd now cv ds).1.twoFactorCodes,
        c.userId = user.id → c.used = false →
        c = ⟨db.nextId, user.id, toString cv, now + 15 * 60, false, 0, now⟩)
    ∧ (∀ db db2 : Db, StepStar db db2 →
      (∀ uid, unusedCodeCount db uid ≤ 1) → ∀ uid, unusedCodeCount db2 uid ≤ 1)
    ∧ (∀ (db : Db) (uid : Nat) (now : Int),
      activeCodeCount db uid now ≤ unusedCodeCount db uid) := by
  refine ⟨?_, ?_, ?_⟩
  · intro db ec eo t e p dt js rs a rd now cv ds user g hu hok
    have hstate :=
      login_twoFactorRequired_state db ec eo t e p dt js rs a rd now cv ds user g hu hok
    rw [hstate]
    constructor
    · unfold activeCodeCount
      dsimp only
      rw [List.countP_append]
      have h0 : (invalidateCodes db.twoFactorCodes user.id).countP
          (fun c => c.userId = user.id && !c.used && now < c.expiresAt) = 0 := by
        have hz := invalidateCodes_unused_zero db.twoFactorCodes user.id
        have hle : (invalidateCodes db.twoFactorCodes user.id).countP
            (fun c => c.userId = user.id && !c.used && now < c.expiresAt) ≤
            (invalidateCodes db.twoFactorCodes user.id).countP
            (fun c => c.userId = user.id && !c.used) := by
          refine List.countP_mono_left (fun c hc hp => ?_)
          simp only [Bool.and_eq_true] at hp ⊢
          exact hp.1
        omega
      rw [h0]
      have hlt : now < now + 15 * 60 := by omega
      simp [hlt]
    · intro c hc hcu hcused
      dsimp only at hc
      rcases List.mem_append.mp hc with hinv | hnew
      · exfalso
        have h0 := invalidateCodes_unused_zero db.twoFactorCodes user.id
        rw [List.countP_eq_zero] at h0
        exact h0 c hinv (by simp [hcu, hcused])
      · rw [List.mem_singleton] at hnew
        exact hnew
  · intro db db2 hstar hb
    induction hstar with
    | refl => exact hb
    | tail _ hstep ih => exact step_unusedBound hstep ih
  · intro db uid now
    refine List.countP_mono_left (fun c hc hp => ?_)
    simp only [Bool.and_eq_true] at hp ⊢
    exact hp.1

/-- Witness for C5: a concrete password login with no device cookie
returns `TwoFactorRequired` and leaves exactly one active code. -/
theorem login_single_active_code_witness :
    findUserByEmail exDb "amelie@acme.test" = some exUser ∧
    (login exDb true true "acme" "amelie@acme.test" "hunter2" none
      "js" "rs" 900 30 0 123456 "ns").2 = .ok (.twoFactorRequired "Acme") ∧
    activeCodeCount (login exDb true true "acme" "amelie@acme.test" "hunter2" none
      "js" "rs" 900 30 0 123456 "ns").1 exUser.id 0 = 1 :=
  ⟨by decide, by decide,
    (login_single_active_code.1 exDb true true "acme" "amelie@acme.test" "hunter2" none
      "js" "rs" 900 30 0 123456 "ns" exUser "Acme" (by decide) (by decide)).1⟩

/-- C6: when `change_password` succeeds (the current password verified),
every refresh-token row of that user is marked revoked in the resulting
state, and any refresh token whose stored rows all belonged to that user
subsequently fails `refresh`. -/
theorem change_password_revokes_sessions :
    ∀ (db : Db) (t : String) (uid : Nat) (cp np : String) (now : Int),
      isOkE (change_password db t uid cp np now).2 = true →
      (∀ r ∈ (change_password db t uid cp np now).1.refreshTokens,
        r.userId = uid → r.revoked = true) ∧
      ∀ (t2 js rs : String) (a rd now2 : Int) (tok : Jwt RefreshClaims) (jti : Nat),
        tokJti tok = some jti →
        (∀ r ∈ db.refreshTokens, r.id = jti → r.userId = uid) →
        ∃ e, (refresh (change_password db t uid cp np now).1
          t2 tok js rs a rd now2).2 = .error e := by
  intro db t uid cp np now hok
  have htab := change_password_ok_tokens db t uid cp np now hok
  constructor
  · intro r hr hru
    rw [htab] at hr
    rcases List.mem_map.mp hr with ⟨r0, hr0, hmap⟩
    by_cases h : r0.userId = uid
    · rw [← hmap, if_pos h]
    · rw [← hmap, if_neg h] at hru
      exact absurd hru h
  · intro t2 js rs a rd now2 tok jti hjti hbelong
    refine refresh_fails_of_revoked _ t2 tok js rs a rd now2 jti hjti ?_
    intro r hr hid
    rw [htab] at hr
    rcases List.mem_map.mp hr with ⟨r0, hr0, hmap⟩
    by_cases h : r0.userId = uid
    · rw [← hmap, if_pos h]
    · rw [← hmap, if_neg h] at hid
      exact absurd (hbelong r0 hr0 hid) h

/-- Witness for C6: changing `exUser`s password with the correct current
password revokes the stored row of `exRefreshTok`, and refreshing with
that previously valid token then fails. -/
theorem change_password_revokes_sessions_witness :
    isOkE (change_password exDbTok "acme" 1 "hunter2" "newpass" 0).2 = true ∧
    tokJti exRefreshTok = some 5 ∧
    (∀ r ∈ exDbTok.refreshTokens, r.id = 5 → r.userId = 1) ∧
    ∃ e, (refresh (change_password exDbTok "acme" 1 "hunter2" "newpass" 0).1
      "acme" exRefreshTok "js" "rsec" 900 30 0).2 = .error e :=
  ⟨by decide, by decide, by decide,
    (change_password_revokes_sessions exDbTok "acme" 1 "hunter2" "newpass" 0 (by decide)).2
      "acme" "js" "rsec" 900 30 0 exRefreshTok 5 (by decide) (by decide)⟩

/-- `find?` keeps a result found in the left part under right-extension. -/
theorem find?_append_of_some {α : Type} (p : α → Bool) {l : List α} (l' : List α)
    {a : α} (h : l.find? p = some a) : (l ++ l').find? p = some a := by
  induction l with
  | nil => simp [List.find?] at h
  | cons x xs ih =>
    rw [List.cons_append]
    cases hp : p x with
    | true => simp only [List.find?, hp] at h ⊢; exact h
    | false => simp only [List.find?, hp] at h ⊢; exact ih h

/-- `find?` skips a prefix on which the predicate is everywhere false. -/
theorem find?_append_of_none {α : Type} (p : α → Bool) {l : List α} (l' : List α)
    (h : ∀ y ∈ l, p y = false) : (l ++ l').find? p = l'.find? p := by
  induction l with
  | nil => rfl
  | cons x xs ih =>
    rw [List.cons_append]
    have hx : p x = false := h x (List.mem_cons_self x xs)
    simp only [List.find?, hx]
    exact ih (fun y hy => h y (List.mem_cons_of_mem x hy))

/-- A validating device cookie keeps validating after rows are appended
to the trusted-device table. -/
theorem validate_device_token_append (db : Db) (uid : Nat) (cv : CookieVal) (now : Int)
    (l : List TrustedDeviceRow) (db' : Db)
    (hdev : db'.trustedDevices = db.trustedDevices ++ l)
    (hval : validate_device_token db uid cv now = true) :
    validate_device_token db' uid cv now = true := by
  rcases cv with ⟨idPart, secret⟩ | s
  · simp only [validate_device_token] at hval ⊢
    rcases hp : idPart.parse with _ | id
    · rw [hp] at hval; simp at hval
    · rw [hp] at hval
      dsimp only at hval ⊢
      rcases hf : db.trustedDevices.find?
          (fun d => d.id = id && d.userId = uid && now < d.expiresAt) with _ | d
      · rw [hf] at hval; simp at hval
      · rw [hf] at hval
        rw [hdev, find?_append_of_some _ l hf]
        exact hval
  · simp only [validate_device_token] at hval
    simp at hval

/-- The whole result of `login` on the device-trusted branch. -/
theorem login_trusted_state (db : Db) (ec eo : Bool) (t e p : String) (cv : CookieVal)
    (js rs : String) (a rd now : Int) (cval : Nat) (ds : String) (user : UserRow)
    (hs : db.schemaExists = true)
    (hu : findUserByEmail db e = some user)
    (hpw : bcryptVerify p user.passwordHash = true)
    (hval : validate_device_token db user.id cv now = true) :
    login db ec eo t e p (some cv) js rs a rd now cval ds =
      ((issueSession db user t js rs a rd now ds).2,
        .ok (.authenticated (issueSession db user t js rs a rd now ds).1.1
          (issueSession db user t js rs a rd now ds).1.2)) := by
  simp [login, hs, hu, hpw, hval]

/-- The trusted-device table after `issueSession`: one appended row with
the second fresh id, and the returned cookie naming that row. -/
theorem issueSession_devices (db : Db) (user : UserRow) (t js rs : String)
    (a rd now : Int) (ds : String) :
    (issueSession db user t js rs a rd now ds).2.trustedDevices =
      db.trustedDevices ++
        [⟨db.nextId + 1, user.id, bcryptHash ds 8, now + 30 * 86400⟩] ∧
    (issueSession db user t js rs a rd now ds).1.2 =
      .split (.render (db.nextId + 1)) ds :=
  ⟨rfl, rfl⟩

/-- C7 counterexample: on `exDb` a trusted-cookie login succeeds, yet the
previously presented cookie value still validates afterwards, and a
second login presenting the very same cookie value is again
authenticated — the old device row is never deleted, contradicting "the
previously presented cookie value no longer validates on any subsequent
login". -/
theorem login_device_rotation_counterexample :
    isAuthenticatedE (login exDb true true "acme" "amelie@acme.test" "hunter2"
      (some exCookie) "js" "rs" 900 30 0 123456 "ns").2 = true ∧
    validate_device_token (login exDb true true "acme" "amelie@acme.test" "hunter2"
      (some exCookie) "js" "rs" 900 30 0 123456 "ns").1 1 exCookie 0 = true ∧
    isAuthenticatedE (login (login exDb true true "acme" "amelie@acme.test" "hunter2"
      (some exCookie) "js" "rs" 900 30 0 123456 "ns").1 true true "acme"
      "amelie@acme.test" "hunter2" (some exCookie) "js" "rs" 900 30 0 123456
      "ns2").2 = true := by decide

/-- C7 (amended): on every successful validation of a trusted-device
cookie during login a NEW cookie value with a fresh id and secret is
issued (the fresh id collides with no stored device row) and that new
cookie validates in the resulting state — but the previously presented
cookie value also STILL validates: the old row is not deleted, so the
last clause of the original claim is false and is here replaced by what
the code does. -/
theorem login_device_rotation :
    ∀ (db : Db) (ec eo : Bool) (t e p : String) (cv : CookieVal) (js rs : String)
      (a rd now : Int) (cval : Nat) (ds : String) (user : UserRow),
      db.schemaExists = true →
      findUserByEmail db e = some user →
      bcryptVerify p user.passwordHash = true →
      validate_device_token db user.id cv now = true →
      (∀ d ∈ db.trustedDevices, d.id < db.nextId) →
      (∃ resp, (login db ec eo t e p (some cv) js rs a rd now cval ds).2 =
        .ok (.authenticated resp (.split (.render (db.nextId + 1)) ds))) ∧
      (∀ d ∈ db.trustedDevices, d.id ≠ db.nextId + 1) ∧
      validate_device_token (login db ec eo t e p (some cv) js rs a rd now cval ds).1
        user.id (.split (.render (db.nextId + 1)) ds) now = true ∧
      validate_device_token (login db ec eo t e p (some cv) js rs a rd now cval ds).1
        user.id cv now = true := by
  intro db ec eo t e p cv js rs a rd now cval ds user hs hu hpw hval hgood
  have hstate := login_trusted_state db ec eo t e p cv js rs a rd now cval ds user
    hs hu hpw hval
  have hdev := (issueSession_devices db user t js rs a rd now ds).1
  refine ⟨?_, ?_, ?_, ?_⟩
  · refine ⟨(issueSession db user t js rs a rd now ds).1.1, ?_⟩
    rw [hstate]
    rw [(issueSession_devices db user t js rs a rd now ds).2]
  · intro d hd
    have := hgood d hd
    omega
  · rw [hstate]
    dsimp only
    simp only [validate_device_token, UuidStr.parse]
    rw [hdev]
    rw [find?_append_of_none _ _ (fun y hy => ?_)]
    · have hlt : now < now + 30 * 86400 := by omega
      simp [List.find?, hlt, bcryptVerify, bcryptHash]
    · have hne : y.id ≠ db.nextId + 1 := by
        have := hgood y hy
        omega
      simp [hne]
  · rw [hstate]
    exact validate_device_token_append db user.id cv now _ _ hdev hval

/-- Witness for C7: the concrete trusted-cookie login on `exDb` issues a
fresh cookie and the old cookie value still validates afterwards. -/
theorem login_device_rotation_witness :
    (exDb.schemaExists = true ∧
      findUserByEmail exDb "amelie@acme.test" = some exUser ∧
      bcryptVerify "hunter2" exUser.passwordHash = true ∧
      validate_device_token exDb 1 exCookie 0 = true ∧
      ∀ d ∈ exDb.trustedDevices, d.id < exDb.nextId) ∧
    validate_device_token (login exDb true true "acme" "amelie@acme.test" "hunter2"
      (some exCookie) "js" "rs" 900 30 0 123456 "ns").1 1 exCookie 0 = true :=
  ⟨⟨by decide, by decide, by decide, by decide, by decide⟩,
    (login_device_rotation exDb true true "acme" "amelie@acme.test" "hunter2" exCookie
      "js" "rs" 900 30 0 123456 "ns" exUser (by decide) (by decide) (by decide)
      (by decide) (by decide)).2.2.2⟩

/-- C9 counterexample: a signed, unexpired refresh token whose `jti`
claim fails to parse makes `logout` return a caller-visible error — the
`?` on `data.claims.jti.parse()` (auth.rs:524) aborts the handler before
the best-effort revocations, contradicting "never fails the
caller-visible operation". -/
theorem logout_best_effort_counterexample :
    (logout exDb "acme" exBadJtiTok "rsec" none 0).2 = .error .jtiParseFailed := by
  decide

/-- C9 (amended): `logout` returns success whenever the refresh token
fails to decode (malformed or wrong signature or expired beyond leeway)
or decodes with a parseable `jti` — whatever the state, the tenant, the
device cookie; the single caller-visible failure is a decodable token
whose `jti` does not parse. -/
theorem logout_best_effort :
    ∀ (db : Db) (t : String) (tok : Jwt RefreshClaims) (rs : String)
      (dt : Option CookieVal) (now : Int),
      (decodeRefresh tok rs now = none ∨
        ∃ rc, decodeRefresh tok rs now = some rc ∧ ∃ j, rc.jti.parse = some j) →
      (logout db t tok rs dt now).2 = .ok () := by
  intro db t tok rs dt now h
  unfold logout
  rcases h with h | ⟨rc, hrc, j, hj⟩
  · rw [h]
  · rw [hrc]
    dsimp only
    rw [hj]

/-- Witness for C9: logging out with an undecodable token and a device
cookie on `exDb` succeeds. -/
theorem logout_best_effort_witness :
    decodeRefresh (Jwt.garbage "x") "rsec" 0 = none ∧
    (logout exDb "acme" (Jwt.garbage "x") "rsec" (some exCookie) 0).2 = .ok () :=
  ⟨by decide, logout_best_effort exDb "acme" (.garbage "x") "rsec" (some exCookie) 0
    (Or.inl (by decide))⟩

end Minispace
